import Mathlib

/-!
# vitunes: playback control (player.c) and start-up / command resolution (vitunes.c)

A shallow embedding of the C sources.  The process-wide globals of `player.c`
(`player`, `player_status`, `just_started_playing`, the static `response`
buffer of `player_monitor`) are gathered in one record `World`, which every
operation takes and returns.  The command pipe is observed through the log
`written` of the `write(2)` calls made by `player_send_cmd`.

Conventions
* C `int` values are `Int`; `nfiles` is a C `int`, so under the queue-index
  invariant `0 <= qidx < nfiles` the increment `++qidx` cannot overflow.
* `char` is `Char`, a C string is the `List Char` before the first NUL.
* a `float` is a `cfloat`: a finite value is kept as an exact decimal
  `mant * 10 ^ exp10` (every binary32 value has such a form), and there are
  the infinities and NaN; a number read from text is rounded to the nearest
  binary32 value, ties to even; the conversion to `int` truncates toward zero
  and is undefined when the result does not fit an `int`.
* `err`/`errx` terminate the process: `Outcome.fatal` carries the message and
  the state at that moment.  `Outcome.undefined` marks an execution that leaves
  the behaviour defined by C (access outside an array, NULL dereference).
* `asprintf` is taken to succeed (allocation failure is not represented).
-/

namespace Vitunes

/-! ## Data model -/

/-- Play modes (`playmode` of player.h). -/
inductive playmode where
  | PLAYER_MODE_LINEAR
  | PLAYER_MODE_LOOP
  | PLAYER_MODE_RANDOM
  deriving DecidableEq, Repr

/-- The one field of a `meta_info` record that player.c reads. -/
structure meta_info where
  filename : String
  deriving DecidableEq, Repr

/-- A playlist: the array `files`; `nfiles` is its number of entries. -/
structure playlist where
  files : List meta_info
  deriving DecidableEq, Repr

/-- The field `nfiles` of a playlist. -/
def playlist.nfiles (q : playlist) : Int := (q.files.length : Int)

/-- Kinds of `float` value. -/
inductive fclass where
  | finite
  | infinite
  | nan
  deriving DecidableEq, Repr

/-- A `float` value.  A finite value is the exact decimal `mant * 10 ^ exp10`;
for an infinity `mant` is 1 or -1 and gives the sign. -/
structure cfloat where
  mant : Int
  exp10 : Int
  cls : fclass := .finite
  deriving DecidableEq, Repr

/-- The `float` obtained from an `int` (`position = 0`, `position = -1`). -/
def cfloat.ofInt (n : Int) : cfloat := { mant := n, exp10 := 0 }

/-- The rational number a finite `cfloat` stands for. -/
def cfloat.toRat (x : cfloat) : ℚ := (x.mant : ℚ) * (10 : ℚ) ^ x.exp10

/-- Integer part of a finite `cfloat`, rounding toward zero. -/
def cfloat.trunc (x : cfloat) : Int :=
  if 0 ≤ x.exp10 then x.mant * 10 ^ x.exp10.toNat
  else Int.tdiv x.mant (10 ^ (-x.exp10).toNat)

/-- The value `+inf` or `-inf`. -/
def cfloat.inf (neg : Bool) : cfloat :=
  { mant := if neg then -1 else 1, exp10 := 0, cls := .infinite }

/-- The value NaN. -/
def cfloat.nan : cfloat := { mant := 0, exp10 := 0, cls := .nan }

/-- The fraction `num / (den * 2 ^ k)` as numerator and denominator. -/
def scale2 (num den : Nat) (k : Int) : Nat × Nat :=
  if 0 ≤ k then (num, den * 2 ^ k.toNat) else (num * 2 ^ (-k).toNat, den)

/-- The least exponent `k` among `fuel` candidates from `k` upward for which
`num / den < 2 ^ (k + 24)`: the exponent of the last mantissa bit. -/
def binary_exponent : Nat → Int → Nat → Nat → Option Int
  | 0, _, _, _ => none
  | fuel + 1, k, num, den =>
    if (scale2 num den (k + 24)).1 < (scale2 num den (k + 24)).2 then some k
    else binary_exponent fuel (k + 1) num den

/-- The integer nearest to `num / den`, a tie going to the even one. -/
def round_half_even (num den : Nat) : Nat :=
  if 2 * (num % den) > den ∨ (2 * (num % den) = den ∧ (num / den) % 2 = 1) then num / den + 1
  else num / den

/-- The binary32 value nearest to `num / den`, negated when `neg`: a mantissa
of at most 24 bits times `2 ^ k` with `-149 <= k <= 104`, or an infinity on
overflow.  `exact` is the given form of `num / den`; it is returned when the
value needs no rounding. -/
def to_binary32 (neg : Bool) (num den : Nat) (exact : cfloat) : cfloat :=
  match binary_exponent 254 (-149) num den with
  | none => cfloat.inf neg
  | some k =>
    let q := round_half_even (scale2 num den k).1 (scale2 num den k).2
    if k = 104 ∧ q = 2 ^ 24 then cfloat.inf neg
    else if q * (scale2 num den k).2 = (scale2 num den k).1 then exact
    else if 0 ≤ k then
      { mant := if neg then -((q * 2 ^ k.toNat : Nat) : Int) else ((q * 2 ^ k.toNat : Nat) : Int),
        exp10 := 0 }
    else
      { mant := if neg then -((q * 5 ^ (-k).toNat : Nat) : Int)
                else ((q * 5 ^ (-k).toNat : Nat) : Int),
        exp10 := k }

/-- The global `player_status`. -/
structure player_status_t where
  playing : Bool
  paused : Bool
  position : cfloat
  deriving DecidableEq

/-- The global `player`. -/
structure player_t where
  program : String
  pargs : List String
  pid : Int
  pipe_read : Int
  pipe_write : Int
  mode : playmode
  queue : Option playlist
  qidx : Int
  rseed : Int
  deriving DecidableEq

/-- All mutable state of player.c, and the log of writes to the command pipe
(descriptor and text of every `write` call, oldest first). -/
structure World where
  player_status : player_status_t
  player : player_t
  just_started_playing : Bool
  response : List Char
  written : List (Int × String)
  deriving DecidableEq

/-- Result of running a C function on a `World`. -/
inductive Outcome where
  | ok (w : World)
  | fatal (msg : String) (w : World)
  | undefined
  deriving DecidableEq

/-- Sequencing: the continuation runs only when the first part returned. -/
def Outcome.bind (o : Outcome) (f : World → Outcome) : Outcome :=
  match o with
  | .ok w => f w
  | .fatal msg w => .fatal msg w
  | .undefined => .undefined

/-- Size of the static `response` buffer of `player_monitor`. -/
def RESPONSE_SIZE : Nat := 1000

/-- Least value of a C `int`. -/
def INT_MIN : Int := -2147483648

/-- Greatest value of a C `int`. -/
def INT_MAX : Int := 2147483647

/-- The conversion `(int) x` of a `float`: defined only for a finite value
whose integer part is representable. -/
def float_to_int (x : cfloat) : Option Int :=
  if x.cls = .finite ∧ INT_MIN ≤ x.trunc ∧ x.trunc ≤ INT_MAX then some x.trunc else none

/-! ## player.c -/

/-- Function `player_init`: `now` is the value returned by `time(0)`. -/
def player_init (prog : String) (pargs : List String) (mode : playmode)
    (now : Int) (w : World) : World :=
  { w with
    player_status := { playing := false, paused := false, position := cfloat.ofInt (-1) },
    player := { program := prog, pargs := pargs, pid := -1,
                pipe_read := -1, pipe_write := -1,
                mode := mode, queue := none, qidx := -1, rseed := now } }

/-- Function `player_send_cmd`: one `write` on `player.pipe_write`; its result is not
inspected by the code. -/
def player_send_cmd (cmd : String) (w : World) : World :=
  { w with written := w.written ++ [(w.player.pipe_write, cmd)] }

/-- Function `player_set_queue`. -/
def player_set_queue (queue : Option playlist) (pos : Int) (w : World) : World :=
  { w with player := { w.player with queue := queue, qidx := pos } }

/-- The assignment `player.qidx = i`. -/
def set_qidx (i : Int) (w : World) : World :=
  { w with player := { w.player with qidx := i } }

/-- The text built by `player_play` from `cmd_fmt` and a file name. -/
def play_cmd (filename : String) : String :=
  "\nloadfile \"" ++ filename ++ "\" 0\nget_time_pos\n"

/-- The second half of `player_play`, for the entry `f = files[qidx]`: the load
command is sent, then the status and the just-started flag are updated. -/
def play_file (f : meta_info) (w : World) : World :=
  let w1 := player_send_cmd (play_cmd f.filename) w
  { w1 with
    player_status := { playing := true, paused := false, position := cfloat.ofInt 0 },
    just_started_playing := true }

/-- Function `player_play`. -/
def player_play (w : World) : Outcome :=
  match w.player.queue with
  | none => .fatal "player_play: bad queue/qidx" w
  | some q =>
    if w.player.qidx < 0 ∨ w.player.qidx > q.nfiles then
      .fatal ("player_play: qidx " ++ toString w.player.qidx ++ " out-of-range") w
    else
      match q.files[w.player.qidx.toNat]? with
      | none => .undefined
      | some f => .ok (play_file f w)

/-- The command sent by `player_stop`. -/
def stop_cmd : String := "\nloadfile dummy.dummy.dummy\n"

/-- Function `player_stop`. -/
def player_stop (w : World) : World :=
  let w1 := player_send_cmd stop_cmd w
  { w1 with player_status := { w1.player_status with playing := false, paused := false } }

/-- Function `player_play_next_song`: `r` is the value `rand()` returns if it is called. -/
def player_play_next_song (r : Nat) (w : World) : Outcome :=
  match w.player.queue with
  | none => .undefined
  | some q =>
    match w.player.mode with
    | .PLAYER_MODE_LINEAR =>
      let w1 := set_qidx (w.player.qidx + 1) w
      if w1.player.qidx = q.nfiles then .ok (player_stop (set_qidx 0 w1))
      else player_play w1
    | .PLAYER_MODE_LOOP =>
      let w1 := set_qidx (w.player.qidx + 1) w
      let w2 := if w1.player.qidx = q.nfiles then set_qidx 0 w1 else w1
      player_play w2
    | .PLAYER_MODE_RANDOM =>
      if q.nfiles = 0 then .undefined
      else player_play (set_qidx (Int.tmod (r : Int) q.nfiles) w)

/-- The command sent by `player_pause`. -/
def pause_cmd : String := "\npause\n"

/-- Function `player_pause`. -/
def player_pause (w : World) : World :=
  if !w.player_status.playing then w
  else
    let w1 := player_send_cmd pause_cmd w
    { w1 with player_status := { w1.player_status with paused := !w1.player_status.paused } }

/-- The text built by `player_seek` from `cmd_fmt` and a number of seconds. -/
def seek_cmd (seconds : Int) : String :=
  "\nseek " ++ toString seconds ++ " 0\nget_time_pos\n"

/-- Function `player_seek`. -/
def player_seek (seconds : Int) (w : World) : World :=
  if !w.player_status.playing then w
  else player_send_cmd (seek_cmd seconds) w

/-- What the environment answers to the system calls of `player_child_launch`
in the parent process. -/
structure LaunchEnv where
  /-- Result of `pipe(pwrite)`: `none` for -1, else `(pwrite[0], pwrite[1])`. -/
  pwrite : Option (Int × Int)
  /-- Result of `pipe(pread)`: `none` for -1, else `(pread[0], pread[1])`. -/
  pread : Option (Int × Int)
  /-- Value returned by `fork()`. -/
  fork : Int
  /-- Whether the parent's two `close` calls succeed. -/
  close_ok : Bool
  /-- Result of `fcntl(F_GETFL)`: `none` for -1. -/
  getfl : Option Int
  /-- Whether `fcntl(F_SETFL)` succeeds. -/
  setfl_ok : Bool
  deriving DecidableEq

/-- Function `player_child_launch`, in the process that called it.  The child
(`fork() = 0`) never returns: it becomes the media player or exits. -/
def player_child_launch (e : LaunchEnv) (w : World) : Outcome :=
  match e.pwrite, e.pread with
  | some pw, some pr =>
    let w1 := { w with player := { w.player with pid := e.fork } }
    if e.fork = -1 then .fatal "player_child_launch: fork() failed" w1
    else if e.fork = 0 then .fatal "child process: execv or exit(1)" w1
    else if !e.close_ok then .fatal "player_child_launch: parent close()'s failed" w1
    else
      let w2 := { w1 with player := { w1.player with pipe_read := pr.1, pipe_write := pw.2 } }
      match e.getfl with
      | none => .fatal "player_child_launch: fcntl() failed to get current flags" w2
      | some _ =>
        if !e.setfl_ok then
          .fatal "player_child_launch: fcntl() failed to set pipe non-blocking" w2
        else .ok w2
  | _, _ => .fatal "player_child_launch: pipe() failed" w

/-- Function `player_child_relaunch`. -/
def player_child_relaunch (e : LaunchEnv) (w : World) : Outcome :=
  (player_child_launch e w).bind fun w1 =>
    if w1.player_status.playing ∧ !w1.player_status.paused then
      match float_to_int w1.player_status.position with
      | none => .undefined
      | some previous_position =>
        (player_play w1).bind fun w2 => .ok (player_seek previous_position w2)
    else .ok w1

/-- The command sent by `player_child_kill`. -/
def quit_cmd : String := "\nquit\n"

/-- Function `player_child_kill`: `now` is the value of `time(0)` read by the
final `player_init`.  The pause, the two `close` calls and `waitpid` change
nothing that is recorded here; `waitpid` is taken to return. -/
def player_child_kill (now : Int) (w : World) : World :=
  let w1 := player_send_cmd quit_cmd w
  player_init w1.player.program w1.player.pargs w1.player.mode now w1

/-! ### The monitor -/

/-- What `read(player.pipe_read, &response, sizeof(response))` returns. -/
inductive ReadResult where
  /-- The bytes stored at the start of `response` (their number is the result;
  it is at most `RESPONSE_SIZE`). -/
  | data (bytes : List Char)
  /-- Result -1 with `errno == EAGAIN`. -/
  | again
  /-- Result -1 with another `errno`. -/
  | failed
  deriving DecidableEq

/-- The query sent by `player_monitor`. -/
def query : String := "\nget_time_pos\n"

/-- The marker searched by `player_monitor`. -/
def answer : List Char := "ANS_TIME_POSITION".toList

/-- The C string that starts at the head of a memory area: the characters
before the first NUL. -/
def cstr (mem : List Char) : List Char := mem.takeWhile (fun c => c != '\x00')

/-- Whether `s` begins with `pat`. -/
def starts_with : List Char → List Char → Bool
  | _, [] => true
  | [], _ :: _ => false
  | c :: s, p :: pat => c == p && starts_with s pat

/-- Function `strstr` of the C library on strings: the suffix of `s` that
starts at the first occurrence of `pat`, if there is one. -/
def strstr : List Char → List Char → Option (List Char)
  | [], pat => if starts_with [] pat then some [] else none
  | c :: s, pat => if starts_with (c :: s) pat then some (c :: s) else strstr s pat

/-- The loop `while (strstr(s + 1, answer) != NULL) s = strstr(s + 1, answer);`
run for at most `fuel` iterations. -/
def last_answer_loop : Nat → List Char → List Char
  | 0, s => s
  | fuel + 1, s =>
    match strstr (s.drop 1) answer with
    | none => s
    | some s1 => last_answer_loop fuel s1

/-- The loop of `player_monitor` that moves `s` to the last marker.  Every
iteration shortens `s`, so `s.length` iterations are enough
(see `last_answer_is_last`). -/
def last_answer (s : List Char) : List Char := last_answer_loop s.length s

/-- Function `isspace` in the C locale. -/
def isspace (c : Char) : Bool :=
  c == ' ' || c == '\t' || c == '\n' || c == '\x0b' || c == '\x0c' || c == '\r'

/-- Reads a run of decimal digits: returns the number made of `acc` followed
by the digits, how many digits were read, and the rest of the input. -/
def scan_digits : List Char → Nat → Nat × Nat × List Char
  | [], acc => (acc, 0, [])
  | c :: s, acc =>
    if c.isDigit then
      let r := scan_digits s (acc * 10 + (c.toNat - '0'.toNat))
      (r.1, r.2.1 + 1, r.2.2)
    else (acc, 0, c :: s)

/-- Reads an optional exponent part: the letter `e` (or `p` for hexadecimal
input), in either case, an optional sign and decimal digits; 0 when there is
none or when no digit follows. -/
def scan_exponent (letter : Char) (s : List Char) : Int :=
  match s with
  | e :: t =>
    if e.toLower == letter then
      match t with
      | '-' :: u => let r := scan_digits u 0; if r.2.1 = 0 then 0 else -(r.1 : Int)
      | '+' :: u => let r := scan_digits u 0; if r.2.1 = 0 then 0 else (r.1 : Int)
      | u => let r := scan_digits u 0; if r.2.1 = 0 then 0 else (r.1 : Int)
    else 0
  | [] => 0

/-- Value of a hexadecimal digit. -/
def hex_val (c : Char) : Option Nat :=
  if c.isDigit then some (c.toNat - '0'.toNat)
  else if 'a' ≤ c.toLower ∧ c.toLower ≤ 'f' then some (c.toLower.toNat - 'a'.toNat + 10)
  else none

/-- Reads a run of hexadecimal digits, like `scan_digits`. -/
def scan_hex_digits : List Char → Nat → Nat × Nat × List Char
  | [], acc => (acc, 0, [])
  | c :: s, acc =>
    match hex_val c with
    | some v =>
      let r := scan_hex_digits s (acc * 16 + v)
      (r.1, r.2.1 + 1, r.2.2)
    | none => (acc, 0, c :: s)

/-- Whether `s` begins with the lower-case word `word`, in either case. -/
def starts_with_word (s : List Char) (word : List Char) : Bool :=
  starts_with (s.map Char.toLower) word

/-- The decimal form of `m * 10 ^ e`, rounded to binary32. -/
def decimal_value (neg : Bool) (m : Nat) (e : Int) : cfloat :=
  to_binary32 neg (if 0 ≤ e then m * 10 ^ e.toNat else m) (if 0 ≤ e then 1 else 10 ^ (-e).toNat)
    { mant := if neg then -(m : Int) else (m : Int), exp10 := e }

/-- The decimal form of `m * 2 ^ e`, rounded to binary32. -/
def binary_value (neg : Bool) (m : Nat) (e : Int) : cfloat :=
  to_binary32 neg (if 0 ≤ e then m * 2 ^ e.toNat else m) (if 0 ≤ e then 1 else 2 ^ (-e).toNat)
    (if 0 ≤ e then
       { mant := if neg then -((m * 2 ^ e.toNat : Nat) : Int) else ((m * 2 ^ e.toNat : Nat) : Int),
         exp10 := 0 }
     else
       { mant := if neg then -((m * 5 ^ (-e).toNat : Nat) : Int)
                 else ((m * 5 ^ (-e).toNat : Nat) : Int),
         exp10 := e })

/-- The text after `0x`: hexadecimal digits with an optional point and an
optional binary exponent `p[+-]digits`.  Without any digit the text is read as
the `0` before the `x` when a point follows the `x`, and is no number
otherwise. -/
def scan_hex (neg : Bool) (s : List Char) : Option cfloat :=
  let ip := scan_hex_digits s 0
  let fp := match ip.2.2 with
            | '.' :: t => scan_hex_digits t ip.1
            | rest => (ip.1, 0, rest)
  if ip.2.1 + fp.2.1 = 0 then
    if starts_with s ['.'] then some (decimal_value neg 0 0) else none
  else some (binary_value neg fp.1 (scan_exponent 'p' fp.2.2 - 4 * (fp.2.1 : Int)))

/-- Decimal text: digits with an optional point (at least one digit) and an
optional exponent `e[+-]digits`. -/
def scan_decimal (neg : Bool) (s : List Char) : Option cfloat :=
  let ip := scan_digits s 0
  let fp := match ip.2.2 with
            | '.' :: t => scan_digits t ip.1
            | rest => (ip.1, 0, rest)
  if ip.2.1 + fp.2.1 = 0 then none
  else some (decimal_value neg fp.1 (scan_exponent 'e' fp.2.2 - (fp.2.1 : Int)))

/-- The conversion `%f` of `sscanf`: white space is skipped and an optional
sign is read; then `nan`, `inf` or `infinity` in either case (an `i` after
`inf` must start `inity`), or hexadecimal text after `0x`, or decimal text.
The value read is rounded to binary32.  `none` when the conversion fails. -/
def scan_float (s : List Char) : Option cfloat :=
  let s0 := s.dropWhile isspace
  let neg := starts_with s0 ['-']
  let s1 := if starts_with s0 ['-'] || starts_with s0 ['+'] then s0.drop 1 else s0
  if starts_with_word s1 ['n'] then
    if starts_with_word s1 ['n', 'a', 'n'] then some cfloat.nan else none
  else if starts_with_word s1 ['i'] then
    if starts_with_word s1 ['i', 'n', 'f'] then
      if starts_with_word (s1.drop 3) ['i'] then
        if starts_with_word (s1.drop 3) ['i', 'n', 'i', 't', 'y'] then some (cfloat.inf neg)
        else none
      else some (cfloat.inf neg)
    else none
  else if starts_with_word s1 ['0', 'x'] then scan_hex neg (s1.drop 2)
  else scan_decimal neg s1

/-- The call `sscanf(s, "ANS_TIME_POSITION=%f", &position)`: `some x` when it
returns 1 (x is the value stored), `none` otherwise. -/
def sscanf_answer (s : List Char) : Option cfloat :=
  if starts_with s (answer ++ ['=']) then scan_float (s.drop (answer.length + 1))
  else none

/-- The part of `player_monitor` between the early return and the final
re-query. -/
def monitor_handle (rd : ReadResult) (r : Nat) (w : World) : Outcome :=
  match rd with
  | .again =>
    if w.player_status.playing ∧ !w.player_status.paused then
      if w.just_started_playing then .ok { w with just_started_playing := false }
      else player_play_next_song r w
    else .ok w
  | .failed => .ok w
  | .data bytes =>
    let nbytes := bytes.length
    let w1 := { w with response := bytes ++ w.response.drop nbytes }
    if nbytes + 1 < RESPONSE_SIZE then
      let w2 := { w1 with response := w1.response.set (nbytes + 1) '\x00' }
      match strstr (cstr w2.response) answer with
      | none => .ok w2
      | some s =>
        match sscanf_answer (last_answer s) with
        | some x => .ok { w2 with player_status := { w2.player_status with position := x } }
        | none => .fatal "player_monitor: player child is misbehaving." w2
    else .undefined

/-- Function `player_monitor`: `rd` is the result of its `read`, `r` the value
of `rand()` if the poll advances the queue in random mode. -/
def player_monitor (rd : ReadResult) (r : Nat) (w : World) : Outcome :=
  if !w.player_status.playing || w.player_status.paused then .ok w
  else
    (monitor_handle rd r w).bind fun w1 =>
      if w1.player_status.playing ∧ !w1.player_status.paused then
        .ok (player_send_cmd query w1)
      else .ok w1

/-! ## Sample states -/

/-- A state whose queue holds the given file names, at index `i`, nothing
playing, the media player attached to descriptors 3 and 4. -/
def sample_world (mode : playmode) (names : List String) (i : Int) : World :=
  { player_status := { playing := false, paused := false, position := cfloat.ofInt (-1) },
    player := { program := "/usr/bin/mplayer", pargs := ["mplayer", "-slave", "-idle"],
                pid := 100, pipe_read := 3, pipe_write := 4, mode := mode,
                queue := some { files := names.map fun n => { filename := n } },
                qidx := i, rseed := 0 },
    just_started_playing := false,
    response := List.replicate RESPONSE_SIZE '\x00',
    written := [] }

/-- The world of an `ok` outcome. -/
def Outcome.world? (o : Outcome) : Option World :=
  match o with
  | .ok w => some w
  | _ => none

/-- The state right after `player_play` on the first of two tracks, the
`response` buffer still all zero as at program start. -/
def playing_world : World :=
  play_file { filename := "a.mp3" } (sample_world .PLAYER_MODE_LINEAR ["a.mp3", "b.mp3"] 0)

/-- A first read of 44 bytes: two answers, each ended by a newline. -/
def first_read : List Char :=
  "ANS_TIME_POSITION=1.0\nANS_TIME_POSITION=1.5\n".toList

/-- A second read of 42 bytes that holds two answers, the last one `22`, the
read ending right after its digits. -/
def second_read : List Char :=
  "ANS_TIME_POSITION=2.0\nANS_TIME_POSITION=22".toList

/-! ## vitunes.c: command resolution in `load_config` -/

/-- A command-mode command (`cmd` of input_handlers.h): its name and its
handler, which receives `argv` and returns a status. -/
structure cmd where
  name : String
  func : List String → Int

/-- Modelled from the spec: the body of `match_command_name` is not among the
sources (input_handlers.h only declares it).  Following the spec, an entry
matches when the typed name `s` is a prefix of the entry's name `name`. -/
def match_command_name (s : String) (name : String) : Bool :=
  starts_with name.toList s.toList

/-- The `for` loop of `load_config` over the entries from position `i` on:
the triple is `(found, found_idx, num_matches)`. -/
def match_loop (argv0 : String) : List cmd → Nat → Bool × Nat × Nat → Bool × Nat × Nat
  | [], _, st => st
  | c :: rest, i, st =>
    if match_command_name argv0 c.name then match_loop argv0 rest (i + 1) (true, i, st.2.2 + 1)
    else match_loop argv0 rest (i + 1) st

/-- How `load_config` ends the handling of one parsed line. -/
inductive LineResult where
  /-- The handler of entry `idx` was called and returned 0. -/
  | ran (idx : Nat)
  /-- The handler of entry `idx` was called and returned `ret`, not 0:
  `errx` with "error with command". -/
  | failed (idx : Nat) (ret : Int)
  /-- No handler called, `errx` with "ambiguous abbreviation". -/
  | ambiguous
  /-- No handler called, `errx` with "unknown command". -/
  | unknown
  /-- Entry `found_idx` is outside the table. -/
  | undefined
  deriving DecidableEq

/-- The "run command" part of `load_config` for one line whose words are
`argv0 :: args`; `found_idx` is the value the variable has from earlier lines
(0 at the first). -/
def run_command (CommandPath : List cmd) (found_idx : Nat) (argv0 : String)
    (args : List String) : LineResult :=
  let st := match_loop argv0 CommandPath 0 (false, found_idx, 0)
  if st.1 ∧ st.2.2 = 1 then
    match CommandPath[st.2.1]? with
    | none => .undefined
    | some c =>
      let ret := c.func (argv0 :: args)
      if ret ≠ 0 then .failed st.2.1 ret else .ran st.2.1
  else if st.2.2 > 1 then .ambiguous
  else .unknown

/-- Number of entries of the table that the typed name matches. -/
def num_matching (CommandPath : List cmd) (argv0 : String) : Nat :=
  CommandPath.countP fun c => match_command_name argv0 c.name

/-- Whether a line result means that the handler of entry `idx` was called. -/
def LineResult.invoked (r : LineResult) (idx : Nat) : Prop :=
  r = .ran idx ∨ ∃ ret, r = .failed idx ret

/-- A state in the middle of playback: second of three tracks, 12.5 seconds
in, random mode, a process and both pipes open, a command already written. -/
def busy_world : World :=
  { player_status := { playing := true, paused := false,
                       position := { mant := 125, exp10 := -1 } },
    player := { program := "/usr/bin/mplayer", pargs := ["mplayer", "-slave", "-idle"],
                pid := 4242, pipe_read := 5, pipe_write := 6,
                mode := .PLAYER_MODE_RANDOM,
                queue := some { files := [⟨"a.mp3"⟩, ⟨"b.mp3"⟩, ⟨"c.mp3"⟩] },
                qidx := 1, rseed := 1286000000 },
    just_started_playing := false,
    response := "ANS_TIME_POSITION=12.5\n".toList ++ List.replicate 977 '\x00',
    written := [(6, "\nloadfile \"b.mp3\" 0\nget_time_pos\n")] }

/-- System calls of a launch that succeeds: pipes (7, 8) and (9, 10), child
process 4300. -/
def good_launch : LaunchEnv :=
  { pwrite := some (7, 8), pread := some (9, 10), fork := 4300,
    close_ok := true, getfl := some 2, setfl_ok := true }

/-! ## vitunes.c: start-up of `main` -/

/-- What the environment answers during the start-up of `main`, in the order
in which `main` asks.  (`main` is taken as compiled without `DEBUG`.) -/
structure StartupEnv where
  /-- Whether `getenv("HOME")` is not NULL. -/
  home_set : Bool
  /-- Whether the `asprintf` calls that build the path names succeed. -/
  paths_ok : Bool
  /-- The status with which `handle_switches` ends the process (`usage`, an
  e-command, a failed or delivered `-c` message); `none` when it returns. -/
  switches_exit : Option Int
  /-- Value returned by `sock_send_msg(VITUNES_RUNNING)`. -/
  probe : Int
  /-- Value that `sock_listen()` returns if it is called. -/
  listen : Int
  /-- Value returned by `sigemptyset` in `setup_timer`. -/
  sigemptyset : Int
  /-- Value returned by `sigaction` in `setup_timer`. -/
  sigaction : Int
  /-- Value returned by `setitimer` in `setup_timer`. -/
  setitimer : Int
  /-- Whether the calls `mi_query_init`, `mi_sort_init`, `mi_display_init`,
  `ybuffer_init`, `toggleset_init` and `medialib_load`, which are not among the
  sources, all return. -/
  library_calls_return : Bool
  /-- Value of `mdb.library->nfiles` after `medialib_load`. -/
  library_nfiles : Int
  /-- Whether the calls `kb_init`, `ui_init`, `paint_setup_colors` and
  `setup_viewing_playlist`, which are not among the sources, all return. -/
  ui_calls_return : Bool
  /-- Whether `load_config` returns: it ends the process on a read error, on a
  line that does not parse, and on a command that is unknown, ambiguous or
  fails. -/
  config_ok : Bool
  /-- Whether the calls `player_init(player_backend)`, `atexit` and
  `paint_all`, which are not among the sources, all return. -/
  player_calls_return : Bool
  /-- Value of `VSIG_QUIT` when the condition of the input loop is first
  evaluated. -/
  quit_pending : Bool
  deriving DecidableEq

/-- How the start-up of `main` ends. -/
inductive StartupEnd where
  /-- The process ends in `err`/`errx` of vitunes.c. -/
  | fatal (msg : String)
  /-- The process ends with this status before the input loop is reached. -/
  | exited (status : Int)
  /-- The process ends inside a call to a function that is not among the
  sources. -/
  | ended_in_call (callee : String)
  /-- The body of the input loop `while (!VSIG_QUIT)` is entered. -/
  | loop_entered
  /-- The loop condition is false at once: cleanup, then `return 0`. -/
  | loop_skipped
  deriving DecidableEq

/-- What is observed of the start-up: the local `sock`, whether `sock_listen`
was called, and how the start-up ended. -/
structure StartupResult where
  sock : Int
  listen_called : Bool
  ending : StartupEnd
  deriving DecidableEq

/-- Function `setup_timer`: the message of the `err` it ends in, `none` when
it returns. -/
def setup_timer (e : StartupEnv) : Option String :=
  if e.sigemptyset < 0 then some "setup_timer: sigemptyset failed"
  else if e.sigaction < 0 then some "setup_timer: sigaction failed"
  else if e.setitimer < 0 then some "setup_timer: setitimer failed"
  else none

/-- How `main` ends after the probe and the optional `sock_listen`: the signal
handlers are installed, then `setup_timer`, the initialisation and loading of
the library, the test for an empty library, the user interface,
`load_config`, the player, and the first test of the loop condition. -/
def startup_ending (e : StartupEnv) : StartupEnd :=
  match setup_timer e with
  | some msg => .fatal msg
  | none =>
    if !e.library_calls_return then .ended_in_call "medialib_load"
    else if e.library_nfiles = 0 then .exited 0
    else if !e.ui_calls_return then .ended_in_call "ui_init"
    else if !e.config_ok then .fatal "load_config"
    else if !e.player_calls_return then .ended_in_call "player_init"
    else if e.quit_pending then .loop_skipped
    else .loop_entered

/-- The part of `main` after the probe and the optional `sock_listen`; it
does not assign `sock`. -/
def main_after_socket (e : StartupEnv) (sock : Int) (listen_called : Bool) : StartupResult :=
  { sock := sock, listen_called := listen_called, ending := startup_ending e }

/-- Function `main` up to the first evaluation of the loop condition. -/
def main_startup (e : StartupEnv) : StartupResult :=
  if !e.home_set then
    { sock := -1, listen_called := false,
      ending := .fatal "$HOME not set. Can't find my config files." }
  else if !e.paths_ok then
    { sock := -1, listen_called := false, ending := .fatal "failed to create needed file names" }
  else
    match e.switches_exit with
    | some status => { sock := -1, listen_called := false, ending := .exited status }
    | none =>
      if e.probe ≠ -1 then
        main_after_socket e (-1) false
      else if e.listen = -1 then
        { sock := e.listen, listen_called := true, ending := .fatal "failed to open socket." }
      else
        main_after_socket e e.listen true

/-- A start-up in which a running instance answers the probe (result 0), no
switch ends the process, every call succeeds, the library holds 12 files and
the configuration loads. -/
def second_instance : StartupEnv :=
  { home_set := true, paths_ok := true, switches_exit := none, probe := 0, listen := 3,
    sigemptyset := 0, sigaction := 0, setitimer := 0,
    library_calls_return := true, library_nfiles := 12, ui_calls_return := true,
    config_ok := true, player_calls_return := true, quit_pending := false }

/-- The queue-index invariant: the queue is `q` and the index is inside it. -/
def index_in_queue (q : playlist) (w : World) : Prop :=
  w.player.queue = some q ∧ 0 ≤ w.player.qidx ∧ w.player.qidx < q.nfiles

/-- The last step of `player_monitor`: the position query is sent again when
the state is playing and not paused. -/
def requery (w : World) : Outcome :=
  if w.player_status.playing ∧ !w.player_status.paused then .ok (player_send_cmd query w)
  else .ok w

/-- The message of a `fatal` outcome. -/
def Outcome.fatal_msg? (o : Outcome) : Option String :=
  match o with
  | .fatal msg _ => some msg
  | _ => none

/-- The buffer of `player_monitor` after `read` stored `bytes` in it and the
terminator was written. -/
def response_after (bytes : List Char) (w : World) : List Char :=
  (bytes ++ w.response.drop bytes.length).set (bytes.length + 1) '\x00'

/-- A read of 22 bytes: one answer, ended by a newline. -/
def answer_read : List Char := "ANS_TIME_POSITION=1.0\n".toList

/-- A read of 16 bytes that stops one character short of the marker. -/
def cut_read : List Char := "ANS_TIME_POSITIO".toList

/-- A read of 18 bytes: the marker and `=`, the number not yet there. -/
def bare_read : List Char := "ANS_TIME_POSITION=".toList

/-- An index inside `[0, nfiles)` names an entry of `files`. -/
theorem files_lookup (q : playlist) (i : Int) (h0 : 0 ≤ i) (h1 : i < q.nfiles) :
    ∃ f, q.files[i.toNat]? = some f := by
  have hlt : i.toNat < q.files.length := by
    unfold playlist.nfiles at h1
    omega
  exact ⟨q.files[i.toNat], List.getElem?_eq_getElem hlt⟩

/-- With a queue and an index inside `[0, nfiles)`, `player_play` returns, and
this is the state it returns. -/
theorem player_play_ok (w : World) (q : playlist) (f : meta_info)
    (hq : w.player.queue = some q) (h0 : 0 ≤ w.player.qidx)
    (h1 : w.player.qidx < q.nfiles) (hf : q.files[w.player.qidx.toNat]? = some f) :
    player_play w = .ok (play_file f w) := by
  have hguard : ¬ (w.player.qidx < 0 ∨ w.player.qidx > q.nfiles) := by omega
  simp only [player_play, hq, hguard, if_false, hf]

/-- The stop command is not the load command of any file name. -/
theorem stop_cmd_ne_play_cmd (name : String) : stop_cmd ≠ play_cmd name := by
  intro h
  have := congrArg String.data h
  simp [play_cmd, stop_cmd] at this

/-- What does hold of the guard of `player_play`: an unset queue, a negative
index and an index above `nfiles` are rejected with the state untouched. -/
theorem player_play_rejects (w : World)
    (h : w.player.queue = none ∨
      ∃ q, w.player.queue = some q ∧ (w.player.qidx < 0 ∨ w.player.qidx > q.nfiles)) :
    ∃ msg, player_play w = .fatal msg w := by
  rcases h with h | ⟨q, hq, hr⟩
  · exact ⟨"player_play: bad queue/qidx", by simp only [player_play, h]⟩
  · exact ⟨"player_play: qidx " ++ toString w.player.qidx ++ " out-of-range",
      by simp only [player_play, hq, hr, if_true]⟩

/-- The index `nfiles`, one past the last entry, passes the guard of
`player_play`: the call is not rejected, it reads `files[nfiles]`. -/
theorem player_play_at_nfiles (w : World) (q : playlist)
    (hq : w.player.queue = some q) (hi : w.player.qidx = q.nfiles) :
    player_play w = .undefined := by
  have hguard : ¬ (w.player.qidx < 0 ∨ w.player.qidx > q.nfiles) := by
    unfold playlist.nfiles at hi ⊢
    omega
  have hnone : q.files[w.player.qidx.toNat]? = none := by
    apply List.getElem?_eq_none
    unfold playlist.nfiles at hi
    omega
  simp only [player_play, hq, hguard, if_false, hnone]

/-! ## The search loop of the monitor -/

/-- What `strstr` returns is a suffix of the string searched and begins with
the pattern. -/
theorem strstr_some (s pat s1 : List Char) (h : strstr s pat = some s1) :
    starts_with s1 pat = true ∧ s1.length ≤ s.length ∧ ∃ pre, s = pre ++ s1 := by
  induction s with
  | nil =>
    unfold strstr at h
    split at h
    · rename_i hs
      injection h with h
      subst h
      exact ⟨hs, le_refl _, [], rfl⟩
    · cases h
  | cons c s ih =>
    unfold strstr at h
    split at h
    · rename_i hs
      injection h with h
      subst h
      exact ⟨hs, le_refl _, [], rfl⟩
    · obtain ⟨h1, h2, pre, h3⟩ := ih h
      refine ⟨h1, ?_, c :: pre, by rw [h3]; rfl⟩
      simp only [List.length_cons]
      omega

/-- With at least `s.length` iterations allowed, the search loop of the
monitor stops because its condition is false: no marker occurs after the
first character of the result. -/
theorem last_answer_loop_done (fuel : Nat) (s : List Char) (h : s.length ≤ fuel) :
    strstr ((last_answer_loop fuel s).drop 1) answer = none := by
  induction fuel generalizing s with
  | zero =>
    have hs : s = [] := List.eq_nil_of_length_eq_zero (by omega)
    subst hs
    rfl
  | succ fuel ih =>
    unfold last_answer_loop
    cases hnext : strstr (s.drop 1) answer with
    | none => exact hnext
    | some s1 =>
      obtain ⟨_, hlen, _⟩ := strstr_some _ _ _ hnext
      have : (s.drop 1).length = s.length - 1 := by simp
      exact ih s1 (by omega)

/-- The search loop keeps `s` at the start of a marker and inside the string. -/
theorem last_answer_loop_suffix (fuel : Nat) (s : List Char)
    (h : starts_with s answer = true) :
    starts_with (last_answer_loop fuel s) answer = true ∧
    ∃ pre, s = pre ++ last_answer_loop fuel s := by
  induction fuel generalizing s with
  | zero => exact ⟨h, [], rfl⟩
  | succ fuel ih =>
    unfold last_answer_loop
    cases hnext : strstr (s.drop 1) answer with
    | none => exact ⟨h, [], rfl⟩
    | some s1 =>
      obtain ⟨hs1, _, pre, hpre⟩ := strstr_some _ _ _ hnext
      obtain ⟨h1, pre1, hpre1⟩ := ih s1 hs1
      refine ⟨h1, s.take 1 ++ pre ++ pre1, ?_⟩
      have hsplit : s = s.take 1 ++ s.drop 1 := (List.take_append_drop 1 s).symm
      simp only at hpre1 ⊢
      rw [List.append_assoc, List.append_assoc, ← hpre1, ← hpre]
      exact hsplit

/-- The loop of `player_monitor` ends, on the last marker of the string: for
`s` at a marker, `last_answer s` is a suffix of `s` that begins with the marker
and after whose first character the marker does not occur again. -/
theorem last_answer_is_last (s : List Char) (h : starts_with s answer = true) :
    starts_with (last_answer s) answer = true ∧
    (∃ pre, s = pre ++ last_answer s) ∧
    strstr ((last_answer s).drop 1) answer = none :=
  ⟨(last_answer_loop_suffix s.length s h).1, (last_answer_loop_suffix s.length s h).2,
    last_answer_loop_done s.length s (le_refl _)⟩

/-- A poll whose read returned data, with the terminator inside the buffer:
when the marker occurs in the string scanned and the last occurrence parses,
the poll returns, the position is the number parsed at the last occurrence,
and the query is written. -/
theorem monitor_stores_last_answer (bytes : List Char) (r : Nat) (w : World)
    (s : List Char) (x : cfloat)
    (hplaying : w.player_status.playing = true) (hpaused : w.player_status.paused = false)
    (hfit : bytes.length + 1 < RESPONSE_SIZE)
    (hfound : strstr (cstr ((bytes ++ w.response.drop bytes.length).set (bytes.length + 1)
      '\x00')) answer = some s)
    (hx : sscanf_answer (last_answer s) = some x) :
    ∃ w', player_monitor (.data bytes) r w = .ok w' ∧
      w'.player_status = { w.player_status with position := x } ∧
      w'.player = w.player ∧
      w'.written = w.written ++ [(w.player.pipe_write, query)] := by
  have hidle : ¬ ((!w.player_status.playing || w.player_status.paused) = true) := by
    simp [hplaying, hpaused]
  have hcond : w.player_status.playing = true ∧ (!w.player_status.paused) = true := by
    simp [hplaying, hpaused]
  refine ⟨player_send_cmd query
    { w with
      response := (bytes ++ w.response.drop bytes.length).set (bytes.length + 1) '\x00',
      player_status := { w.player_status with position := x } }, ?_, rfl, rfl, rfl⟩
  unfold player_monitor
  rw [if_neg hidle]
  simp only [monitor_handle]
  rw [if_pos hfit]
  simp only [hfound, hx, Outcome.bind]
  rw [if_pos hcond]

/-! ## The monitor: active polls and polls that read data -/

/-- Past its early return, `player_monitor` is the handling of the read
followed by the re-query. -/
theorem player_monitor_active (rd : ReadResult) (r : Nat) (w : World)
    (hplaying : w.player_status.playing = true) (hpaused : w.player_status.paused = false) :
    player_monitor rd r w = (monitor_handle rd r w).bind requery := by
  have hidle : ¬ ((!w.player_status.playing || w.player_status.paused) = true) := by
    simp [hplaying, hpaused]
  unfold player_monitor
  rw [if_neg hidle]
  rfl

/-- A poll whose read returned data, with the terminator inside the buffer,
by what the string scanned holds: without the marker the poll returns having
changed only the buffer and written the query; with the marker and a last
occurrence that does not parse, it ends in `errx`. -/
theorem monitor_data_cases (bytes : List Char) (r : Nat) (w : World)
    (hplaying : w.player_status.playing = true) (hpaused : w.player_status.paused = false)
    (hfit : bytes.length + 1 < RESPONSE_SIZE) :
    (strstr (cstr (response_after bytes w)) answer = none →
      player_monitor (.data bytes) r w
        = .ok (player_send_cmd query { w with response := response_after bytes w })) ∧
    (∀ s, strstr (cstr (response_after bytes w)) answer = some s →
      sscanf_answer (last_answer s) = none →
      player_monitor (.data bytes) r w
        = .fatal "player_monitor: player child is misbehaving."
            { w with response := response_after bytes w }) ∧
    (∀ s x, strstr (cstr (response_after bytes w)) answer = some s →
      sscanf_answer (last_answer s) = some x →
      player_monitor (.data bytes) r w
        = .ok (player_send_cmd query
            { w with response := response_after bytes w,
                     player_status := { w.player_status with position := x } })) := by
  have hcond : w.player_status.playing = true ∧ (!w.player_status.paused) = true := by
    simp [hplaying, hpaused]
  rw [player_monitor_active _ r w hplaying hpaused]
  refine ⟨fun hnone => ?_, fun s hs hx => ?_, fun s x hs hx => ?_⟩
  · unfold response_after at hnone
    simp only [monitor_handle]
    rw [if_pos hfit]
    simp only [hnone, Outcome.bind, requery]
    rw [if_pos hcond]
    rfl
  · unfold response_after at hs
    simp only [monitor_handle]
    rw [if_pos hfit]
    simp only [hs, hx, Outcome.bind]
    rfl
  · unfold response_after at hs
    simp only [monitor_handle]
    rw [if_pos hfit]
    simp only [hs, hx, Outcome.bind, requery]
    rw [if_pos hcond]
    rfl

/-- For a poll that reads data while playing and not paused, the behaviour is
undefined exactly when the terminator index `nbytes + 1` is not inside the
buffer, that is for reads of `RESPONSE_SIZE - 1` bytes or more. -/
theorem monitor_undefined_iff (bytes : List Char) (r : Nat) (w : World)
    (hplaying : w.player_status.playing = true) (hpaused : w.player_status.paused = false) :
    player_monitor (.data bytes) r w = .undefined ↔ RESPONSE_SIZE ≤ bytes.length + 1 := by
  constructor
  · intro hu
    by_contra hge
    have hfit : bytes.length + 1 < RESPONSE_SIZE := by omega
    obtain ⟨h1, h2, h3⟩ := monitor_data_cases bytes r w hplaying hpaused hfit
    cases hs : strstr (cstr (response_after bytes w)) answer with
    | none => rw [h1 hs] at hu; cases hu
    | some s =>
      cases hx : sscanf_answer (last_answer s) with
      | none => rw [h2 s hs hx] at hu; cases hu
      | some x => rw [h3 s x hs hx] at hu; cases hu
  · intro hge
    have hfit : ¬ (bytes.length + 1 < RESPONSE_SIZE) := by omega
    rw [player_monitor_active _ r w hplaying hpaused]
    simp only [monitor_handle]
    rw [if_neg hfit]
    rfl

/-! ## C1 -/

/-- C1 (code evaluated at the failing inputs): with an empty queue and index 0,
and with a queue of two tracks and index 2, the index is outside `[0, nfiles)`
but the guard `qidx > nfiles` of `player_play` lets it through: no fatal error
is raised, and the code goes on to read `files[nfiles]`, past the last entry. -/
theorem player_play_accepts_index_nfiles :
    player_play (sample_world .PLAYER_MODE_LINEAR [] 0) = Outcome.undefined ∧
    player_play (sample_world .PLAYER_MODE_LINEAR ["a.mp3", "b.mp3"] 2) = Outcome.undefined ∧
    (∀ msg w, player_play (sample_world .PLAYER_MODE_LINEAR [] 0) ≠ Outcome.fatal msg w) ∧
    (∀ msg w, player_play (sample_world .PLAYER_MODE_LINEAR ["a.mp3", "b.mp3"] 2)
        ≠ Outcome.fatal msg w) := by
  have h1 : player_play (sample_world .PLAYER_MODE_LINEAR [] 0) = Outcome.undefined := by decide
  have h2 : player_play (sample_world .PLAYER_MODE_LINEAR ["a.mp3", "b.mp3"] 2)
      = Outcome.undefined := by decide
  refine ⟨h1, h2, ?_, ?_⟩
  · intro msg w h; rw [h1] at h; cases h
  · intro msg w h; rw [h2] at h; cases h

/-! ## C2 -/

/-- C2: in Linear mode, from an index `i` inside a queue of `N > 0` tracks
(so that `i + 1 < N` or `i = N - 1`), `player_play_next_song` returns; when
`i + 1 < N` the index becomes `i + 1`,
the load command of track `i + 1` is the one command written, and the state
is playing and not paused; when `i = N - 1` the index becomes 0, the state is
not playing and not paused, and the one command written is the stop command
(the load of the file name `dummy.dummy.dummy`, without a position query),
which is not the load command of any track of the queue. -/
theorem linear_next_song (r : Nat) (w : World) (q : playlist)
    (hmode : w.player.mode = .PLAYER_MODE_LINEAR) (hq : w.player.queue = some q)
    (_hN : 0 < q.nfiles) (h0 : 0 ≤ w.player.qidx) (h1 : w.player.qidx < q.nfiles) :
    (w.player.qidx + 1 < q.nfiles ∨ w.player.qidx = q.nfiles - 1) ∧
    (w.player.qidx + 1 < q.nfiles →
      ∃ f w', q.files[(w.player.qidx + 1).toNat]? = some f ∧
        player_play_next_song r w = .ok w' ∧
        w'.player.qidx = w.player.qidx + 1 ∧
        w'.player_status.playing = true ∧ w'.player_status.paused = false ∧
        w'.written = w.written ++ [(w.player.pipe_write, play_cmd f.filename)]) ∧
    (w.player.qidx = q.nfiles - 1 →
      ∃ w', player_play_next_song r w = .ok w' ∧
        w'.player.qidx = 0 ∧
        w'.player_status.playing = false ∧ w'.player_status.paused = false ∧
        w'.written = w.written ++ [(w.player.pipe_write, stop_cmd)] ∧
        ∀ f ∈ q.files, stop_cmd ≠ play_cmd f.filename) ∧
    stop_cmd = "\nloadfile dummy.dummy.dummy\n" := by
  refine ⟨by omega, ?_, ?_, rfl⟩
  · intro hlt
    obtain ⟨f, hf⟩ := files_lookup q (w.player.qidx + 1) (by omega) hlt
    have hne : ¬ (w.player.qidx + 1 = q.nfiles) := by omega
    have hplay := player_play_ok (set_qidx (w.player.qidx + 1) w) q f hq
      (by show 0 ≤ w.player.qidx + 1; omega) hlt hf
    refine ⟨f, play_file f (set_qidx (w.player.qidx + 1) w), hf, ?_, rfl, rfl, rfl, rfl⟩
    simp only [player_play_next_song, hq, hmode]
    rw [if_neg (by exact hne)]
    exact hplay
  · intro hlast
    have heq : w.player.qidx + 1 = q.nfiles := by omega
    refine ⟨player_stop (set_qidx 0 (set_qidx (w.player.qidx + 1) w)), ?_, rfl, rfl, rfl, rfl,
      fun f _ => stop_cmd_ne_play_cmd f.filename⟩
    simp only [player_play_next_song, hq, hmode]
    rw [if_pos (by exact heq)]

/-- Witness for C2 on a queue of two tracks: from index 0 the song at index 1
is loaded; from index 1 the player wraps to index 0 and stops. -/
theorem linear_next_song_witness :
    (∃ f w', [meta_info.mk "a.mp3", meta_info.mk "b.mp3"][1]? = some f ∧
      player_play_next_song 0 (sample_world .PLAYER_MODE_LINEAR ["a.mp3", "b.mp3"] 0) = .ok w' ∧
      w'.player.qidx = 1 ∧
      w'.player_status.playing = true ∧ w'.player_status.paused = false ∧
      w'.written = [(4, play_cmd f.filename)]) ∧
    (∃ w', player_play_next_song 0 (sample_world .PLAYER_MODE_LINEAR ["a.mp3", "b.mp3"] 1)
        = .ok w' ∧
      w'.player.qidx = 0 ∧
      w'.player_status.playing = false ∧ w'.player_status.paused = false ∧
      w'.written = [(4, stop_cmd)]) := by
  constructor
  · obtain ⟨f, w', hf, h⟩ :=
      (linear_next_song 0 (sample_world .PLAYER_MODE_LINEAR ["a.mp3", "b.mp3"] 0)
        { files := [⟨"a.mp3"⟩, ⟨"b.mp3"⟩] } rfl rfl (by decide) (by decide) (by decide)).2.1
        (by decide)
    exact ⟨f, w', hf, h⟩
  · obtain ⟨w', h1, h2, h3, h4, h5, _⟩ :=
      (linear_next_song 0 (sample_world .PLAYER_MODE_LINEAR ["a.mp3", "b.mp3"] 1)
        { files := [⟨"a.mp3"⟩, ⟨"b.mp3"⟩] } rfl rfl (by decide) (by decide) (by decide)).2.2.1
        (by decide)
    exact ⟨w', h1, h2, h3, h4, h5⟩

/-! ## C3 -/

/-- C3: in Loop mode, from an index `i` inside a queue of `N > 0` tracks,
`player_play_next_song` returns with the index `(i + 1) mod N`, the load
command of the track at that index as the one command written, and the state
playing and not paused. -/
theorem loop_next_song (r : Nat) (w : World) (q : playlist)
    (hmode : w.player.mode = .PLAYER_MODE_LOOP) (hq : w.player.queue = some q)
    (hN : 0 < q.nfiles) (h0 : 0 ≤ w.player.qidx) (h1 : w.player.qidx < q.nfiles) :
    ∃ f w', q.files[((w.player.qidx + 1) % q.nfiles).toNat]? = some f ∧
      player_play_next_song r w = .ok w' ∧
      w'.player.qidx = (w.player.qidx + 1) % q.nfiles ∧
      (w.player.qidx = q.nfiles - 1 → w'.player.qidx = 0) ∧
      w'.player_status.playing = true ∧ w'.player_status.paused = false ∧
      w'.written = w.written ++ [(w.player.pipe_write, play_cmd f.filename)] := by
  by_cases hlast : w.player.qidx + 1 = q.nfiles
  · have hmod : (w.player.qidx + 1) % q.nfiles = 0 := by
      rw [hlast]; exact Int.emod_self
    obtain ⟨f, hf⟩ := files_lookup q 0 (le_refl 0) hN
    have hplay := player_play_ok (set_qidx 0 (set_qidx (w.player.qidx + 1) w)) q f hq
      (le_refl 0) hN hf
    refine ⟨f, play_file f (set_qidx 0 (set_qidx (w.player.qidx + 1) w)), ?_, ?_,
      hmod.symm, fun _ => rfl, rfl, rfl, rfl⟩
    · rw [hmod]; exact hf
    · simp only [player_play_next_song, hq, hmode]
      rw [if_pos (by exact hlast)]
      exact hplay
  · have hlt : w.player.qidx + 1 < q.nfiles := by omega
    have hmod : (w.player.qidx + 1) % q.nfiles = w.player.qidx + 1 :=
      Int.emod_eq_of_lt (by omega) hlt
    obtain ⟨f, hf⟩ := files_lookup q (w.player.qidx + 1) (by omega) hlt
    have hplay := player_play_ok (set_qidx (w.player.qidx + 1) w) q f hq
      (by show 0 ≤ w.player.qidx + 1; omega) hlt hf
    refine ⟨f, play_file f (set_qidx (w.player.qidx + 1) w), ?_, ?_,
      hmod.symm, fun h => absurd (by omega) hlast, rfl, rfl, rfl⟩
    · rw [hmod]; exact hf
    · simp only [player_play_next_song, hq, hmode]
      rw [if_neg (by exact hlast)]
      exact hplay

/-- Witness for C3 on a queue of two tracks at its last index: the index wraps
to 0, track 0 is loaded and playback goes on. -/
theorem loop_next_song_witness :
    ∃ f w', [meta_info.mk "a.mp3", meta_info.mk "b.mp3"][0]? = some f ∧
      player_play_next_song 0 (sample_world .PLAYER_MODE_LOOP ["a.mp3", "b.mp3"] 1) = .ok w' ∧
      w'.player.qidx = 0 ∧
      w'.player_status.playing = true ∧ w'.player_status.paused = false ∧
      w'.written = [(4, play_cmd f.filename)] := by
  obtain ⟨f, w', hf, h1, h2, _, h4, h5, h6⟩ :=
    loop_next_song 0 (sample_world .PLAYER_MODE_LOOP ["a.mp3", "b.mp3"] 1)
      { files := [⟨"a.mp3"⟩, ⟨"b.mp3"⟩] } rfl rfl (by decide) (by decide) (by decide)
  exact ⟨f, w', hf, h1, h2, h4, h5, h6⟩

/-! ## C4 -/

/-- C4: in Random mode, for a queue of `N > 0` tracks and any value `r` of
`rand()`, `player_play_next_song` returns with the index `r mod N`, which lies
in `[0, N)`, the load command of the track at that index as the one command
written, and the state playing and not paused; and an index that was in range
before can come out again (for `r` equal to it). -/
theorem random_next_song (r : Nat) (w : World) (q : playlist)
    (hmode : w.player.mode = .PLAYER_MODE_RANDOM) (hq : w.player.queue = some q)
    (hN : 0 < q.nfiles) :
    (∃ f w', q.files[r % q.files.length]? = some f ∧
      player_play_next_song r w = .ok w' ∧
      w'.player.qidx = ((r % q.files.length : Nat) : Int) ∧
      0 ≤ w'.player.qidx ∧ w'.player.qidx < q.nfiles ∧
      w'.player_status.playing = true ∧ w'.player_status.paused = false ∧
      w'.written = w.written ++ [(w.player.pipe_write, play_cmd f.filename)]) ∧
    (0 ≤ w.player.qidx → w.player.qidx < q.nfiles →
      ∃ r' w', player_play_next_song r' w = .ok w' ∧ w'.player.qidx = w.player.qidx) := by
  have hne : ¬ (q.nfiles = 0) := by omega
  have hlen : 0 < q.files.length := by
    unfold playlist.nfiles at hN; omega
  have key : ∀ k : Nat, ∃ f, q.files[k % q.files.length]? = some f ∧
      player_play_next_song k w
        = .ok (play_file f (set_qidx ((k % q.files.length : Nat) : Int) w)) := by
    intro k
    have hidx : Int.tmod (k : Int) q.nfiles = ((k % q.files.length : Nat) : Int) := by
      unfold playlist.nfiles; exact (Int.ofNat_tmod k q.files.length).symm
    have hlt : k % q.files.length < q.files.length := Nat.mod_lt k hlen
    have hf : q.files[k % q.files.length]? = some q.files[k % q.files.length] :=
      List.getElem?_eq_getElem hlt
    refine ⟨q.files[k % q.files.length], hf, ?_⟩
    have hplay := player_play_ok (set_qidx ((k % q.files.length : Nat) : Int) w) q
      q.files[k % q.files.length] hq (by show (0 : Int) ≤ ((k % q.files.length : Nat) : Int); omega)
      (by show ((k % q.files.length : Nat) : Int) < q.nfiles; unfold playlist.nfiles; omega)
      (by show q.files[(((k % q.files.length : Nat) : Int)).toNat]? = _
          rw [Int.toNat_ofNat]; exact hf)
    simp only [player_play_next_song, hq, hmode]
    rw [if_neg hne, hidx]
    exact hplay
  constructor
  · obtain ⟨f, hf, hrun⟩ := key r
    have hlt : r % q.files.length < q.files.length := Nat.mod_lt r hlen
    refine ⟨f, _, hf, hrun, rfl, ?_, ?_, rfl, rfl, rfl⟩
    · show (0 : Int) ≤ ((r % q.files.length : Nat) : Int); omega
    · show ((r % q.files.length : Nat) : Int) < q.nfiles
      unfold playlist.nfiles; omega
  · intro h0 h1
    obtain ⟨f, _, hrun⟩ := key w.player.qidx.toNat
    refine ⟨w.player.qidx.toNat, _, hrun, ?_⟩
    show ((w.player.qidx.toNat % q.files.length : Nat) : Int) = w.player.qidx
    unfold playlist.nfiles at h1
    have : w.player.qidx.toNat < q.files.length := by omega
    rw [Nat.mod_eq_of_lt this]
    omega

/-- Witness for C4 on a queue of three tracks with `rand()` returning 7: the
index becomes 7 mod 3 = 1, whatever it was, and track 1 is loaded. -/
theorem random_next_song_witness :
    ∃ f w', [meta_info.mk "a.mp3", meta_info.mk "b.mp3", meta_info.mk "c.mp3"][1]? = some f ∧
      player_play_next_song 7
        (sample_world .PLAYER_MODE_RANDOM ["a.mp3", "b.mp3", "c.mp3"] 1) = .ok w' ∧
      w'.player.qidx = 1 ∧
      w'.player_status.playing = true ∧ w'.player_status.paused = false ∧
      w'.written = [(4, play_cmd f.filename)] := by
  obtain ⟨f, w', hf, h1, h2, _, _, h5, h6, h7⟩ :=
    (random_next_song 7 (sample_world .PLAYER_MODE_RANDOM ["a.mp3", "b.mp3", "c.mp3"] 1)
      { files := [⟨"a.mp3"⟩, ⟨"b.mp3"⟩, ⟨"c.mp3"⟩] } rfl rfl (by decide)).1
  exact ⟨f, w', hf, h1, h2, h5, h6, h7⟩
/-! ## C5 -/

/-- C5 (code evaluated at the failing input): after a poll that read 44 bytes,
a poll reads 42 bytes holding two well-formed answers, `2.0` and then `22`.
The terminator goes to `response[43]`, so `response[42]` still holds the `5`
of the earlier poll and the text scanned ends in `ANS_TIME_POSITION=225`: the
position stored is 225, not the 22 of the last answer of the buffer read. -/
theorem monitor_scans_stale_byte :
    sscanf_answer (last_answer second_read) = some { mant := 22, exp10 := 0 } ∧
    ((player_monitor (.data first_read) 0 playing_world).world?.map
        fun w => w.player_status.position) = some { mant := 15, exp10 := -1 } ∧
    (((player_monitor (.data first_read) 0 playing_world).bind
        (player_monitor (.data second_read) 0)).world?.map
        fun w => (w.player_status.position, w.response.take 44))
      = some ({ mant := 225, exp10 := 0 },
          "ANS_TIME_POSITION=2.0\nANS_TIME_POSITION=225\x00".toList) := by
  refine ⟨by decide, by decide, by decide⟩
/-! ## C6 -/

/-- The loop of `load_config` counts the matching entries; it leaves `found`
and `found_idx` alone when there is none, and otherwise sets `found` and leaves
in `found_idx` the position of a matching entry. -/
theorem match_loop_spec (argv0 : String) (cs : List cmd) (i : Nat) (st : Bool × Nat × Nat) :
    (match_loop argv0 cs i st).2.2
        = st.2.2 + cs.countP (fun c => match_command_name argv0 c.name) ∧
    (cs.countP (fun c => match_command_name argv0 c.name) = 0 →
        match_loop argv0 cs i st = st) ∧
    (0 < cs.countP (fun c => match_command_name argv0 c.name) →
        (match_loop argv0 cs i st).1 = true ∧
        i ≤ (match_loop argv0 cs i st).2.1 ∧
        ∃ c, cs[(match_loop argv0 cs i st).2.1 - i]? = some c ∧
          match_command_name argv0 c.name = true) := by
  induction cs generalizing i st with
  | nil => simp [match_loop]
  | cons c rest ih =>
    by_cases hc : match_command_name argv0 c.name = true
    · have ih1 := ih (i + 1) (true, i, st.2.2 + 1)
      have hstep : match_loop argv0 (c :: rest) i st
          = match_loop argv0 rest (i + 1) (true, i, st.2.2 + 1) := by
        simp only [match_loop, hc, if_true]
      have hcount : (c :: rest).countP (fun c => match_command_name argv0 c.name)
          = rest.countP (fun c => match_command_name argv0 c.name) + 1 :=
        List.countP_cons_of_pos _ _ hc
      rw [hstep, hcount]
      refine ⟨?_, fun h => absurd h (Nat.succ_ne_zero _), fun _ => ?_⟩
      · rw [ih1.1]; show st.2.2 + 1 + _ = _; omega
      by_cases hrest : rest.countP (fun c => match_command_name argv0 c.name) = 0
      · rw [ih1.2.1 hrest]
        exact ⟨rfl, le_refl i, c, by simp, hc⟩
      · obtain ⟨h1, h2, c1, h3, h4⟩ := ih1.2.2 (Nat.pos_of_ne_zero hrest)
        refine ⟨h1, by omega, c1, ?_, h4⟩
        have : (match_loop argv0 rest (i + 1) (true, i, st.2.2 + 1)).2.1 - i
            = ((match_loop argv0 rest (i + 1) (true, i, st.2.2 + 1)).2.1 - (i + 1)) + 1 := by
          omega
        rw [this, List.getElem?_cons_succ]
        exact h3
    · have ih1 := ih (i + 1) st
      have hstep : match_loop argv0 (c :: rest) i st = match_loop argv0 rest (i + 1) st := by
        simp only [match_loop, hc, Bool.false_eq_true, if_false]
      have hcount : (c :: rest).countP (fun c => match_command_name argv0 c.name)
          = rest.countP (fun c => match_command_name argv0 c.name) :=
        List.countP_cons_of_neg _ _ hc
      rw [hstep, hcount]
      refine ⟨ih1.1, ih1.2.1, fun hpos => ?_⟩
      obtain ⟨h1, h2, c1, h3, h4⟩ := ih1.2.2 hpos
      refine ⟨h1, by omega, c1, ?_, h4⟩
      have : (match_loop argv0 rest (i + 1) st).2.1 - i
          = ((match_loop argv0 rest (i + 1) st).2.1 - (i + 1)) + 1 := by
        omega
      rw [this, List.getElem?_cons_succ]
      exact h3

/-- C6: command resolution in `load_config`, an entry matching when the typed
name is a prefix of its name.  For every table and typed name a handler is
called exactly when one entry matches, and it is the handler of a matching
entry (so of the only one); with no matching entry the result is "unknown
command", with two or more "ambiguous abbreviation", no handler being called
in either case.  `w` against (write, new) runs write; `w` against (write, wq)
is ambiguous; `x` against (write, new) is unknown. -/
theorem load_config_resolution :
    (∀ (CommandPath : List cmd) (found_idx : Nat) (argv0 : String) (args : List String),
      ((∃ idx, (run_command CommandPath found_idx argv0 args).invoked idx)
          ↔ num_matching CommandPath argv0 = 1) ∧
      (∀ idx, (run_command CommandPath found_idx argv0 args).invoked idx →
          ∃ c, CommandPath[idx]? = some c ∧ match_command_name argv0 c.name = true ∧
            (run_command CommandPath found_idx argv0 args
              = if c.func (argv0 :: args) ≠ 0 then .failed idx (c.func (argv0 :: args))
                else .ran idx)) ∧
      (num_matching CommandPath argv0 = 0 →
          run_command CommandPath found_idx argv0 args = .unknown) ∧
      (2 ≤ num_matching CommandPath argv0 →
          run_command CommandPath found_idx argv0 args = .ambiguous)) ∧
    (∀ (hw hn : List String → Int) (args : List String), hw ("w" :: args) = 0 →
      run_command [⟨"write", hw⟩, ⟨"new", hn⟩] 0 "w" args = .ran 0) ∧
    (∀ (hw hq : List String → Int) (args : List String),
      run_command [⟨"write", hw⟩, ⟨"wq", hq⟩] 0 "w" args = .ambiguous) ∧
    (∀ (hw hn : List String → Int) (args : List String),
      run_command [⟨"write", hw⟩, ⟨"new", hn⟩] 0 "x" args = .unknown) := by
  have main : ∀ (CommandPath : List cmd) (found_idx : Nat) (argv0 : String)
      (args : List String),
      (num_matching CommandPath argv0 = 1 →
        ∃ idx c, CommandPath[idx]? = some c ∧ match_command_name argv0 c.name = true ∧
          run_command CommandPath found_idx argv0 args
            = if c.func (argv0 :: args) ≠ 0 then .failed idx (c.func (argv0 :: args))
              else .ran idx) ∧
      (num_matching CommandPath argv0 = 0 →
        run_command CommandPath found_idx argv0 args = .unknown) ∧
      (2 ≤ num_matching CommandPath argv0 →
        run_command CommandPath found_idx argv0 args = .ambiguous) := by
    intro CommandPath found_idx argv0 args
    obtain ⟨hn, hzero, hpos⟩ := match_loop_spec argv0 CommandPath 0 (false, found_idx, 0)
    simp only [Nat.zero_add, Nat.sub_zero] at hn hpos
    refine ⟨fun h1 => ?_, fun h0 => ?_, fun h2 => ?_⟩
    · unfold num_matching at h1
      obtain ⟨hfound, _, c, hc, hm⟩ := hpos (by omega)
      refine ⟨_, c, hc, hm, ?_⟩
      have hcond : (match_loop argv0 CommandPath 0 (false, found_idx, 0)).1 = true ∧
          (match_loop argv0 CommandPath 0 (false, found_idx, 0)).2.2 = 1 :=
        ⟨hfound, by rw [hn]; exact h1⟩
      simp only [run_command]
      rw [if_pos hcond, hc]
    · unfold num_matching at h0
      simp only [run_command]
      rw [hzero h0]
      simp
    · unfold num_matching at h2
      have hcond : ¬ ((match_loop argv0 CommandPath 0 (false, found_idx, 0)).1 = true ∧
          (match_loop argv0 CommandPath 0 (false, found_idx, 0)).2.2 = 1) := by
        rw [hn]; omega
      simp only [run_command]
      rw [if_neg hcond, if_pos (by rw [hn]; omega)]
  refine ⟨fun CommandPath found_idx argv0 args => ?_, ?_, ?_, ?_⟩
  · obtain ⟨h1, h0, h2⟩ := main CommandPath found_idx argv0 args
    have hinv : ∀ idx, (run_command CommandPath found_idx argv0 args).invoked idx →
        num_matching CommandPath argv0 = 1 := by
      intro idx hidx
      by_contra hne
      have hcases : num_matching CommandPath argv0 = 0 ∨ 2 ≤ num_matching CommandPath argv0 := by
        omega
      rcases hcases with h | h
      · rw [LineResult.invoked, h0 h] at hidx
        rcases hidx with h' | ⟨_, h'⟩ <;> cases h'
      · rw [LineResult.invoked, h2 h] at hidx
        rcases hidx with h' | ⟨_, h'⟩ <;> cases h'
    refine ⟨⟨fun ⟨idx, hidx⟩ => hinv idx hidx, fun hone => ?_⟩, fun idx hidx => ?_, h0, h2⟩
    · obtain ⟨idx, c, _, _, hrun⟩ := h1 hone
      refine ⟨idx, ?_⟩
      rw [LineResult.invoked, hrun]
      by_cases hret : c.func (argv0 :: args) ≠ 0
      · rw [if_pos hret]; exact Or.inr ⟨_, rfl⟩
      · rw [if_neg hret]; exact Or.inl rfl
    · obtain ⟨idx1, c, hc, hm, hrun⟩ := h1 (hinv idx hidx)
      have hsame : idx = idx1 := by
        rw [LineResult.invoked, hrun] at hidx
        by_cases hret : c.func (argv0 :: args) ≠ 0
        · rw [if_pos hret] at hidx
          rcases hidx with h' | ⟨_, h'⟩
          · cases h'
          · injection h' with h1 _; exact h1.symm
        · rw [if_neg hret] at hidx
          rcases hidx with h' | ⟨_, h'⟩
          · injection h' with h1; exact h1.symm
          · cases h'
      subst hsame
      exact ⟨c, hc, hm, hrun⟩
  · intro hw hn args hret
    simp [run_command, match_loop, match_command_name, starts_with, hret]
  · intro hw hq args
    simp [run_command, match_loop, match_command_name, starts_with]
  · intro hw hn args
    simp [run_command, match_loop, match_command_name, starts_with]

/-- Witness for C6: with handlers that return 0, `w` typed against the table
(write, new) calls the handler of entry 0, and exactly one entry matches. -/
theorem load_config_resolution_witness :
    run_command [⟨"write", fun _ => 0⟩, ⟨"new", fun _ => 0⟩] 0 "w" ["playlist"] = .ran 0 ∧
    num_matching [⟨"write", fun _ => 0⟩, ⟨"new", fun _ => 0⟩] "w" = 1 :=
  ⟨load_config_resolution.2.1 (fun _ => 0) (fun _ => 0) ["playlist"] rfl,
   ((load_config_resolution.1 [⟨"write", fun _ => 0⟩, ⟨"new", fun _ => 0⟩] 0 "w"
      ["playlist"]).1).1
     ⟨0, Or.inl (load_config_resolution.2.1 (fun _ => 0) (fun _ => 0) ["playlist"] rfl)⟩⟩
/-! ## C7 -/

/-- C7: from every state, after `player_child_kill` the controller is in the
non-functional default of `player_init`: pid -1, both pipe descriptors -1,
queue unset, index -1, not playing, not paused, position -1, with the program
path and arguments (and the play mode) it had before; the `player` and
`player_status` globals are exactly those that `player_init` gives before any
launch.  Killing again leaves all of this as it is: `player_status` is the
same, and `player` is the same in every field (its seed is the clock value
read by that kill).  The position -1 is the decimal with mantissa -1 and
exponent 0, and the one command the kill writes is the quit command. -/
theorem player_child_kill_resets (now now2 : Int) (w : World) :
    (player_child_kill now w).player.pid = -1 ∧
    (player_child_kill now w).player.pipe_read = -1 ∧
    (player_child_kill now w).player.pipe_write = -1 ∧
    (player_child_kill now w).player.queue = none ∧
    (player_child_kill now w).player.qidx = -1 ∧
    (player_child_kill now w).player_status.playing = false ∧
    (player_child_kill now w).player_status.paused = false ∧
    (player_child_kill now w).player_status.position = cfloat.ofInt (-1) ∧
    (player_child_kill now w).player.program = w.player.program ∧
    (player_child_kill now w).player.pargs = w.player.pargs ∧
    (player_child_kill now w).player.mode = w.player.mode ∧
    (player_child_kill now w).player
        = (player_init w.player.program w.player.pargs w.player.mode now w).player ∧
    (player_child_kill now w).player_status
        = (player_init w.player.program w.player.pargs w.player.mode now w).player_status ∧
    (player_child_kill now2 (player_child_kill now w)).player_status
        = (player_child_kill now w).player_status ∧
    (player_child_kill now2 (player_child_kill now w)).player
        = { (player_child_kill now w).player with rseed := now2 } ∧
    (player_child_kill now (player_child_kill now w)).player
        = (player_child_kill now w).player ∧
    (player_child_kill now w).player_status.position = { mant := -1, exp10 := 0 } ∧
    (player_child_kill now w).written = w.written ++ [(w.player.pipe_write, "\nquit\n")] := by
  refine ⟨rfl, rfl, rfl, rfl, rfl, rfl, rfl, rfl, rfl, rfl, rfl, rfl, rfl, rfl, rfl, rfl, rfl,
    rfl⟩
/-! ## C8 -/

/-- A launch that returns changed only the process id and the two pipe
descriptors. -/
theorem player_child_launch_ok (e : LaunchEnv) (w wl : World)
    (h : player_child_launch e w = .ok wl) :
    ∃ pw pr, e.pwrite = some pw ∧ e.pread = some pr ∧
      wl = { w with player :=
              { w.player with pid := e.fork, pipe_read := pr.1, pipe_write := pw.2 } } := by
  unfold player_child_launch at h
  split at h
  · rename_i pw pr hpw hpr
    refine ⟨pw, pr, hpw, hpr, ?_⟩
    simp only at h
    split at h
    · cases h
    · split at h
      · cases h
      · split at h
        · cases h
        · split at h
          · cases h
          · split at h
            · cases h
            · injection h with h
              exact h.symm
  · cases h

/-- A launch never leaves defined behaviour, and when it fails it has not
touched the playback status or the command log. -/
theorem player_child_launch_frame (e : LaunchEnv) (w : World) :
    ∃ w', (player_child_launch e w = .ok w' ∨ ∃ msg, player_child_launch e w = .fatal msg w') ∧
      w'.player_status = w.player_status ∧ w'.written = w.written ∧
      w'.player.queue = w.player.queue ∧ w'.player.qidx = w.player.qidx := by
  unfold player_child_launch
  split
  · simp only
    split
    · exact ⟨_, Or.inr ⟨_, rfl⟩, rfl, rfl, rfl, rfl⟩
    · split
      · exact ⟨_, Or.inr ⟨_, rfl⟩, rfl, rfl, rfl, rfl⟩
      · split
        · exact ⟨_, Or.inr ⟨_, rfl⟩, rfl, rfl, rfl, rfl⟩
        · split
          · exact ⟨_, Or.inr ⟨_, rfl⟩, rfl, rfl, rfl, rfl⟩
          · split
            · exact ⟨_, Or.inr ⟨_, rfl⟩, rfl, rfl, rfl, rfl⟩
            · exact ⟨_, Or.inl rfl, rfl, rfl, rfl, rfl⟩
  · exact ⟨_, Or.inr ⟨_, rfl⟩, rfl, rfl, rfl, rfl⟩

/-- C8 as stated fails: playing, not paused, on track 1 of 3 with recorded
position 12.5, the relaunch writes the load command of track 1 and then the
seek command with target 12; no seek command can carry 12.5, its argument
being an `int`. -/
theorem relaunch_seek_target_truncated :
    busy_world.player_status.playing = true ∧ busy_world.player_status.paused = false ∧
    busy_world.player_status.position.toRat = 25 / 2 ∧
    ((player_child_relaunch good_launch busy_world).world?.map fun w => w.written)
      = some (busy_world.written ++ [(8, play_cmd "b.mp3"), (8, seek_cmd 12)]) ∧
    (¬ ∃ n : Int, (n : ℚ) = busy_world.player_status.position.toRat) ∧
    seek_cmd 12 = "\nseek 12 0\nget_time_pos\n" := by
  have hpos : busy_world.player_status.position.toRat = 25 / 2 := by
    simp only [busy_world, cfloat.toRat]
    norm_num
  refine ⟨rfl, rfl, hpos, by decide, ?_, by decide⟩
  rintro ⟨n, hn⟩
  rw [hpos] at hn
  have h2 : ((2 * n : Int) : ℚ) = ((25 : Int) : ℚ) := by
    push_cast
    rw [hn]
    norm_num
  have h3 : 2 * n = 25 := by exact_mod_cast h2
  omega

/-- C8, amended: when playing and not paused, with a queue, an index inside
it and a recorded position `p` whose integer part `n` (rounded toward zero)
fits an `int`, a relaunch whose launch succeeds writes to the new command pipe
the load command of the track at the unchanged index and then the seek command
with target `n`, and `playing` is true after the launch, after the play and
after the seek.  When not playing or paused, the relaunch writes nothing and
leaves the playback status as it was, whether the launch succeeds or not.
The seek command with target `n` is the line `seek n 0` followed by the
position query. -/
theorem relaunch_resumes (e : LaunchEnv) (w : World) :
    (∀ (wl : World) (q : playlist) (f : meta_info) (n : Int),
      player_child_launch e w = .ok wl →
      w.player_status.playing = true → w.player_status.paused = false →
      w.player.queue = some q → 0 ≤ w.player.qidx → w.player.qidx < q.nfiles →
      q.files[w.player.qidx.toNat]? = some f →
      float_to_int w.player_status.position = some n →
      n = w.player_status.position.trunc ∧
      wl.player_status.playing = true ∧
      ∃ wp, player_play wl = .ok wp ∧ wp.player_status.playing = true ∧
        player_child_relaunch e w = .ok (player_seek n wp) ∧
        (player_seek n wp).player_status.playing = true ∧
        (player_seek n wp).player.qidx = w.player.qidx ∧
        (player_seek n wp).player.queue = w.player.queue ∧
        (player_seek n wp).written = w.written ++
          [(wl.player.pipe_write, play_cmd f.filename), (wl.player.pipe_write, seek_cmd n)]) ∧
    (w.player_status.playing = false ∨ w.player_status.paused = true →
      ∃ w', (player_child_relaunch e w = .ok w' ∨
          ∃ msg, player_child_relaunch e w = .fatal msg w') ∧
        w'.written = w.written ∧ w'.player_status = w.player_status) ∧
    (∀ n : Int, seek_cmd n = "\nseek " ++ toString n ++ " 0\nget_time_pos\n") := by
  refine ⟨?_, ?_, fun n => rfl⟩
  · intro wl q f n hlaunch hplaying hpaused hq h0 h1 hf hn
    obtain ⟨pw, pr, _, _, hwl⟩ := player_child_launch_ok e w wl hlaunch
    have hst : wl.player_status = w.player_status := by rw [hwl]
    have hqi : wl.player.qidx = w.player.qidx := by rw [hwl]
    have hqu : wl.player.queue = w.player.queue := by rw [hwl]
    have hwr : wl.written = w.written := by rw [hwl]
    have hplay : player_play wl = .ok (play_file f wl) :=
      player_play_ok wl q f (by rw [hqu]; exact hq) (by rw [hqi]; exact h0)
        (by rw [hqi]; exact h1) (by rw [hqi]; exact hf)
    have htr : n = w.player_status.position.trunc := by
      unfold float_to_int at hn
      split at hn
      · injection hn with hn; exact hn.symm
      · cases hn
    refine ⟨htr, by rw [hst]; exact hplaying, play_file f wl, hplay, rfl, ?_, rfl, ?_, ?_, ?_⟩
    · have hcond : wl.player_status.playing = true ∧ (!wl.player_status.paused) = true := by
        rw [hst, hplaying, hpaused]; exact ⟨rfl, rfl⟩
      simp only [player_child_relaunch, hlaunch, Outcome.bind]
      rw [if_pos hcond, hst, hn]
      simp only [hplay]
    · show wl.player.qidx = w.player.qidx
      exact hqi
    · show wl.player.queue = w.player.queue
      exact hqu
    · show (wl.written ++ [(wl.player.pipe_write, play_cmd f.filename)])
          ++ [(wl.player.pipe_write, seek_cmd n)] = _
      rw [hwr, List.append_assoc]
      rfl
  · intro hidle
    obtain ⟨w', hcase, hst, hwr, _, _⟩ := player_child_launch_frame e w
    have hcond : ¬ (w'.player_status.playing = true ∧ (!w'.player_status.paused) = true) := by
      rw [hst]
      rcases hidle with h | h <;> simp [h]
    refine ⟨w', ?_, hwr, hst⟩
    rcases hcase with h | ⟨msg, h⟩
    · left
      simp only [player_child_relaunch, h, Outcome.bind]
      rw [if_neg hcond]
    · right
      exact ⟨msg, by simp only [player_child_relaunch, h, Outcome.bind]⟩

/-- Witness for C8 (amended) on the state with position 12.5 and a launch that
succeeds: the load command of track 1 and the seek command with target 12 are
written to the new command pipe (descriptor 8). -/
theorem relaunch_resumes_witness :
    ∃ wp, player_child_relaunch good_launch busy_world = .ok (player_seek 12 wp) ∧
      (player_seek 12 wp).player_status.playing = true ∧
      (player_seek 12 wp).player.qidx = 1 ∧
      (player_seek 12 wp).written = busy_world.written ++
        [(8, play_cmd "b.mp3"), (8, seek_cmd 12)] := by
  obtain ⟨_, _, wp, _, _, h1, h2, h3, _, h5⟩ :=
    (relaunch_resumes good_launch busy_world).1
      { busy_world with player :=
          { busy_world.player with pid := 4300, pipe_read := 9, pipe_write := 8 } }
      { files := [⟨"a.mp3"⟩, ⟨"b.mp3"⟩, ⟨"c.mp3"⟩] } ⟨"b.mp3"⟩ 12
      rfl rfl rfl rfl (by decide) (by decide) (by decide) (by decide)
  exact ⟨wp, h1, h2, h3, h5⟩
/-! ## C9 -/

/-- C9 as stated fails: when a running instance answers the probe, the new
instance does not open a listening endpoint, but it does not exit either: it
goes on and enters the input loop with `sock = -1`. -/
theorem second_instance_enters_loop :
    second_instance.probe ≠ -1 ∧
    (main_startup second_instance).listen_called = false ∧
    (main_startup second_instance).sock = -1 ∧
    (main_startup second_instance).ending = .loop_entered := by
  decide

/-- How the start-up ends once the probe is past does not depend on what
the probe or `sock_listen` returned: the loop is entered exactly when every
later step succeeds. -/
theorem startup_ending_loop_iff (e : StartupEnv) :
    startup_ending e = .loop_entered ↔
      (0 ≤ e.sigemptyset ∧ 0 ≤ e.sigaction ∧ 0 ≤ e.setitimer ∧
        e.library_calls_return = true ∧ e.library_nfiles ≠ 0 ∧ e.ui_calls_return = true ∧
        e.config_ok = true ∧ e.player_calls_return = true ∧ e.quit_pending = false) := by
  unfold startup_ending setup_timer
  by_cases h1 : e.sigemptyset < 0
  · simp only [h1, if_true]
    constructor
    · intro h; cases h
    · intro h; omega
  · by_cases h2 : e.sigaction < 0
    · simp only [h1, h2, if_true, if_false]
      constructor
      · intro h; cases h
      · intro h; omega
    · by_cases h3 : e.setitimer < 0
      · simp only [h1, h2, h3, if_true, if_false]
        constructor
        · intro h; cases h
        · intro h; omega
      · simp only [h1, h2, h3, if_false]
        have g1 : 0 ≤ e.sigemptyset := by omega
        have g2 : 0 ≤ e.sigaction := by omega
        have g3 : 0 ≤ e.setitimer := by omega
        cases h4 : e.library_calls_return <;> cases h6 : e.ui_calls_return <;>
          cases h7 : e.config_ok <;> cases h8 : e.player_calls_return <;>
          cases h9 : e.quit_pending <;> by_cases h5 : e.library_nfiles = 0 <;>
          simp [g1, g2, g3, h5]

/-- C9, amended: whenever the probe is answered (`sock_send_msg` does not
return -1), `sock_listen` is not called and `sock` stays -1; the instance does
not exit on that account: the start-up ends exactly as it does when the probe
is not answered and `sock_listen` succeeds, and the input loop is entered
(with `sock = -1`) exactly when every step of the start-up succeeds: `HOME` is
set, the path names are built, `handle_switches` returns, the three calls in
`setup_timer` do not fail, the calls into the other modules return, the
library is not empty, `load_config` returns and no quit signal is pending. -/
theorem probe_answered_no_listen (e : StartupEnv) (h : e.probe ≠ -1) :
    (main_startup e).listen_called = false ∧
    (main_startup e).sock = -1 ∧
    (e.listen ≠ -1 →
      (main_startup { e with probe := -1 }).ending = (main_startup e).ending) ∧
    ((main_startup e).ending = .loop_entered ↔
      (e.home_set = true ∧ e.paths_ok = true ∧ e.switches_exit = none ∧
        0 ≤ e.sigemptyset ∧ 0 ≤ e.sigaction ∧ 0 ≤ e.setitimer ∧
        e.library_calls_return = true ∧ e.library_nfiles ≠ 0 ∧ e.ui_calls_return = true ∧
        e.config_ok = true ∧ e.player_calls_return = true ∧ e.quit_pending = false)) := by
  have hrun : e.home_set = true → e.paths_ok = true → e.switches_exit = none →
      main_startup e = main_after_socket e (-1) false := by
    intro hh hp hs
    unfold main_startup
    rw [hh, hp, hs]
    simp only [Bool.not_true, Bool.false_eq_true, if_false]
    rw [if_pos h]
  refine ⟨?_, ?_, fun hl => ?_, ?_⟩
  · unfold main_startup
    split_ifs
    · rfl
    · rfl
    · split <;> rfl
  · unfold main_startup
    split_ifs
    · rfl
    · rfl
    · split <;> rfl
  · unfold main_startup
    cases hh : e.home_set
    · rfl
    · cases hp : e.paths_ok
      · rfl
      · cases hs : e.switches_exit with
        | some status => rfl
        | none =>
          simp only [Bool.not_true, Bool.false_eq_true, if_false, ne_eq, not_true_eq_false]
          rw [if_neg hl, if_pos h]
          rfl
  · cases hh : e.home_set
    · have : (main_startup e).ending ≠ .loop_entered := by
        unfold main_startup
        rw [hh]
        simp
      simp [this]
    · cases hp : e.paths_ok
      · have : (main_startup e).ending ≠ .loop_entered := by
          unfold main_startup
          rw [hh, hp]
          simp
        simp [this]
      · cases hs : e.switches_exit with
        | some status =>
          have : (main_startup e).ending ≠ .loop_entered := by
            unfold main_startup
            rw [hh, hp, hs]
            simp
          simp [this]
        | none =>
          rw [hrun hh hp hs]
          show startup_ending e = .loop_entered ↔ _
          rw [startup_ending_loop_iff e]
          simp

/-- Witness for C9 (amended): with the probe answered (result 0), no endpoint
is opened, `sock` is -1, and, every step succeeding, the input loop is
entered. -/
theorem probe_answered_no_listen_witness :
    (main_startup second_instance).listen_called = false ∧
    (main_startup second_instance).sock = -1 ∧
    (main_startup second_instance).ending = .loop_entered :=
  ⟨(probe_answered_no_listen second_instance (by decide)).1,
   (probe_answered_no_listen second_instance (by decide)).2.1,
   ((probe_answered_no_listen second_instance (by decide)).2.2.2).2 (by decide)⟩

/-! ## C10 -/

/-- From an index inside a queue, `player_play_next_song` returns and the
index is again inside the queue, in every play mode and for every value of
`rand()`. -/
theorem player_play_next_song_keeps_index (r : Nat) (w : World) (q : playlist)
    (h : index_in_queue q w) :
    ∃ w', player_play_next_song r w = .ok w' ∧ index_in_queue q w' := by
  obtain ⟨hq, h0, h1⟩ := h
  have hN : 0 < q.nfiles := by omega
  have hstep : ∀ i : Int, 0 ≤ i → i < q.nfiles →
      ∃ w', player_play (set_qidx i w) = .ok w' ∧ index_in_queue q w' := by
    intro i hi0 hi1
    obtain ⟨f, hf⟩ := files_lookup q i hi0 hi1
    exact ⟨play_file f (set_qidx i w), player_play_ok (set_qidx i w) q f hq hi0 hi1 hf,
      hq, hi0, hi1⟩
  cases hmode : w.player.mode with
  | PLAYER_MODE_LINEAR =>
    simp only [player_play_next_song, hq, hmode]
    by_cases hlast : w.player.qidx + 1 = q.nfiles
    · rw [if_pos (by exact hlast)]
      exact ⟨_, rfl, hq, le_refl 0, hN⟩
    · rw [if_neg (by exact hlast)]
      exact hstep (w.player.qidx + 1) (by omega) (by omega)
  | PLAYER_MODE_LOOP =>
    simp only [player_play_next_song, hq, hmode]
    by_cases hlast : w.player.qidx + 1 = q.nfiles
    · rw [if_pos (by exact hlast)]
      exact hstep 0 (le_refl 0) hN
    · rw [if_neg (by exact hlast)]
      exact hstep (w.player.qidx + 1) (by omega) (by omega)
  | PLAYER_MODE_RANDOM =>
    simp only [player_play_next_song, hq, hmode]
    rw [if_neg (by omega)]
    exact hstep (Int.tmod (r : Int) q.nfiles) (Int.tmod_nonneg _ (by omega))
      (Int.tmod_lt_of_pos _ hN)

/-- The re-query that ends `player_monitor` keeps the index and the queue. -/
theorem requery_keeps_index (q : playlist) (w : World) (h : index_in_queue q w) :
    ∃ w', (if w.player_status.playing ∧ !w.player_status.paused then
            Outcome.ok (player_send_cmd query w) else Outcome.ok w) = .ok w' ∧
      index_in_queue q w' := by
  split
  · exact ⟨_, rfl, h⟩
  · exact ⟨_, rfl, h⟩

/-- Whatever its `read` returns, a poll that starts with the index inside the
queue either has no defined result, which happens only while playing and not
paused when the `read` returns `RESPONSE_SIZE - 1` bytes or more, or ends (by
returning or in `errx`) with the index inside the queue. -/
theorem player_monitor_keeps_index (rd : ReadResult) (r : Nat) (w : World) (q : playlist)
    (h : index_in_queue q w) :
    (∃ bytes, rd = .data bytes ∧ RESPONSE_SIZE ≤ bytes.length + 1 ∧
      w.player_status.playing = true ∧ w.player_status.paused = false ∧
      player_monitor rd r w = .undefined) ∨
    ∃ w', (player_monitor rd r w = .ok w' ∨ ∃ msg, player_monitor rd r w = .fatal msg w') ∧
      index_in_queue q w' := by
  unfold player_monitor
  by_cases hidle : (!w.player_status.playing || w.player_status.paused) = true
  · rw [if_pos hidle]
    exact Or.inr ⟨w, Or.inl rfl, h⟩
  · rw [if_neg hidle]
    have hplaying : w.player_status.playing = true := by
      cases hp : w.player_status.playing <;> simp [hp] at hidle ⊢
    have hpaused : w.player_status.paused = false := by
      cases hp : w.player_status.paused <;> simp [hp] at hidle ⊢
    have finish : ∀ w1, index_in_queue q w1 →
        ∃ w', ((Outcome.ok w1).bind (fun w1 =>
            if w1.player_status.playing ∧ !w1.player_status.paused then
              Outcome.ok (player_send_cmd query w1) else Outcome.ok w1) = .ok w' ∨
          ∃ msg, (Outcome.ok w1).bind (fun w1 =>
            if w1.player_status.playing ∧ !w1.player_status.paused then
              Outcome.ok (player_send_cmd query w1) else Outcome.ok w1) = .fatal msg w') ∧
          index_in_queue q w' := by
      intro w1 h1
      obtain ⟨w', hw', hinv⟩ := requery_keeps_index q w1 h1
      exact ⟨w', Or.inl hw', hinv⟩
    cases rd with
    | again =>
      right
      simp only [monitor_handle]
      split
      · split
        · exact finish _ h
        · obtain ⟨w1, hrun, hinv⟩ := player_play_next_song_keeps_index r w q h
          rw [hrun]
          exact finish w1 hinv
      · exact finish _ h
    | failed =>
      right
      simp only [monitor_handle]
      exact finish _ h
    | data bytes =>
      simp only [monitor_handle]
      by_cases hfit : bytes.length + 1 < RESPONSE_SIZE
      · right
        rw [if_pos hfit]
        split
        · exact finish _ h
        · split
          · exact finish _ h
          · exact ⟨_, Or.inr ⟨_, rfl⟩, h⟩
      · left
        rw [if_neg hfit]
        exact ⟨bytes, rfl, by omega, hplaying, hpaused, rfl⟩

/-- What holds of the queue index: with a queue of `N > 0` tracks and
`0 <= qidx < N`, in every play mode and for every value of `rand()`,
`player_play_next_song` returns with `0 <= qidx < N` again (same queue);
`player_stop`, `player_pause` and `player_seek` leave index and queue
unchanged; and a `player_monitor` poll ends with `0 <= qidx < N` unless its
read returns `RESPONSE_SIZE - 1` bytes or more while playing, in which case
it has no defined result. -/
theorem queue_index_kept_where_defined (w : World) (q : playlist)
    (hq : w.player.queue = some q) (_hN : 0 < q.nfiles)
    (h0 : 0 ≤ w.player.qidx) (h1 : w.player.qidx < q.nfiles) :
    (∀ r : Nat, ∃ w', player_play_next_song r w = .ok w' ∧
      w'.player.queue = some q ∧ 0 ≤ w'.player.qidx ∧ w'.player.qidx < q.nfiles) ∧
    ((player_stop w).player.qidx = w.player.qidx ∧
      (player_stop w).player.queue = w.player.queue) ∧
    ((player_pause w).player.qidx = w.player.qidx ∧
      (player_pause w).player.queue = w.player.queue) ∧
    (∀ seconds : Int, (player_seek seconds w).player.qidx = w.player.qidx ∧
      (player_seek seconds w).player.queue = w.player.queue) ∧
    (∀ (rd : ReadResult) (r : Nat),
      (∃ bytes, rd = .data bytes ∧ RESPONSE_SIZE ≤ bytes.length + 1 ∧
        w.player_status.playing = true ∧ w.player_status.paused = false ∧
        player_monitor rd r w = .undefined) ∨
      ∃ w', (player_monitor rd r w = .ok w' ∨ ∃ msg, player_monitor rd r w = .fatal msg w') ∧
        w'.player.queue = some q ∧ 0 ≤ w'.player.qidx ∧ w'.player.qidx < q.nfiles) := by
  have hinv : index_in_queue q w := ⟨hq, h0, h1⟩
  refine ⟨fun r => player_play_next_song_keeps_index r w q hinv, ⟨rfl, rfl⟩, ?_, ?_,
    fun rd r => player_monitor_keeps_index rd r w q hinv⟩
  · unfold player_pause
    split <;> exact ⟨rfl, rfl⟩
  · intro seconds
    unfold player_seek
    split <;> exact ⟨rfl, rfl⟩

/-- C10 (code evaluated at the failing input): playing and not paused on
track 1 of a queue of 3, so with `0 <= qidx < N`, a poll whose `read` fills
the buffer (1000 bytes, the size it is given) writes the terminator at index
1001, outside `response`: the poll has no defined result, and so no state in
which `0 <= qidx < N` holds comes out of it, by return or by `errx`. -/
theorem full_read_poll_gives_no_index :
    index_in_queue { files := [⟨"a.mp3"⟩, ⟨"b.mp3"⟩, ⟨"c.mp3"⟩] } busy_world ∧
    busy_world.player_status.playing = true ∧ busy_world.player_status.paused = false ∧
    (List.replicate 1000 'n').length = RESPONSE_SIZE ∧
    player_monitor (.data (List.replicate 1000 'n')) 7 busy_world = .undefined ∧
    ¬ ∃ w', (player_monitor (.data (List.replicate 1000 'n')) 7 busy_world = .ok w' ∨
        ∃ msg, player_monitor (.data (List.replicate 1000 'n')) 7 busy_world = .fatal msg w') ∧
      0 ≤ w'.player.qidx ∧ w'.player.qidx < 3 := by
  have hu : player_monitor (.data (List.replicate 1000 'n')) 7 busy_world = .undefined :=
    (monitor_undefined_iff _ 7 busy_world rfl rfl).2 (by rw [List.length_replicate]; decide)
  refine ⟨⟨rfl, by decide, by decide⟩, rfl, rfl, List.length_replicate _ _, hu, ?_⟩
  rintro ⟨w', h | ⟨msg, h⟩, _⟩
  · rw [hu] at h; cases h
  · rw [hu] at h; cases h

/-! ## C11 -/

/-- C12: when not playing, `player_pause` writes nothing and returns the state
it was given; when playing, it adds exactly one command, the pause toggle, to
those written, negates `paused` and leaves everything else (playing, position,
the `player` record with queue and index, flag, buffer) as it was; so two
pauses in a row while playing give back the `paused` flag, and the whole
status, of the start.  The pause toggle is the text `pause` between two
newlines. -/
theorem player_pause_toggles (w : World) :
    (w.player_status.playing = false → player_pause w = w) ∧
    (w.player_status.playing = true →
      (player_pause w).written = w.written ++ [(w.player.pipe_write, pause_cmd)] ∧
      (player_pause w).player_status.paused = !w.player_status.paused ∧
      (player_pause w).player_status.playing = w.player_status.playing ∧
      (player_pause w).player_status.position = w.player_status.position ∧
      (player_pause w).player = w.player ∧
      (player_pause w).just_started_playing = w.just_started_playing ∧
      (player_pause w).response = w.response) ∧
    (w.player_status.playing = true →
      (player_pause (player_pause w)).player_status.paused = w.player_status.paused ∧
      (player_pause (player_pause w)).player_status = w.player_status ∧
      (player_pause (player_pause w)).written
        = w.written ++ [(w.player.pipe_write, pause_cmd), (w.player.pipe_write, pause_cmd)]) ∧
    pause_cmd = "\npause\n" := by
  refine ⟨fun h => ?_, fun h => ?_, fun h => ?_, rfl⟩
  · simp [player_pause, h]
  · simp [player_pause, h, player_send_cmd]
  · obtain ⟨⟨playing, paused, position⟩, pl, js, resp, wr⟩ := w
    simp only at h
    subst h
    simp [player_pause, player_send_cmd]

/-- Witness for C12 on a state that is playing and not paused: one pause sets
`paused`, a second one clears it again. -/
theorem player_pause_toggles_witness :
    (player_pause busy_world).player_status.paused = true ∧
    (player_pause busy_world).written = busy_world.written ++ [(6, pause_cmd)] ∧
    (player_pause (player_pause busy_world)).player_status = busy_world.player_status :=
  ⟨((player_pause_toggles busy_world).2.1 rfl).2.1,
   ((player_pause_toggles busy_world).2.1 rfl).1,
   ((player_pause_toggles busy_world).2.2.1 rfl).2.1⟩
/-! ## C13 -/

/-- C13: while playing and not paused, a poll whose read reports no data
(EAGAIN) does this.  If the just-started flag is set, the poll returns having
cleared the flag and sent the position query: index, queue, playing, paused
and position are as before, so the queue is not advanced.  If the flag is
clear, the poll is `player_play_next_song` for the current mode followed by
the re-query.  Hence after a `player_play` that succeeded, the first no-data
poll keeps the index of the track just started and clears the flag, and a
second no-data poll in a row runs `player_play_next_song`, which returns. -/
theorem just_started_guard (r : Nat) (w : World)
    (hplaying : w.player_status.playing = true) (hpaused : w.player_status.paused = false) :
    (w.just_started_playing = true →
      player_monitor .again r w
        = .ok (player_send_cmd query { w with just_started_playing := false }) ∧
      ∃ w', player_monitor .again r w = .ok w' ∧
        w'.just_started_playing = false ∧
        w'.player = w.player ∧ w'.player_status = w.player_status ∧
        w'.response = w.response ∧
        w'.written = w.written ++ [(w.player.pipe_write, query)]) ∧
    (w.just_started_playing = false →
      player_monitor .again r w = (player_play_next_song r w).bind requery) ∧
    (∀ (w0 : World) (q : playlist), w0.player.queue = some q →
      0 ≤ w0.player.qidx → w0.player.qidx < q.nfiles →
      ∃ wp w1 w2, player_play w0 = .ok wp ∧
        player_monitor .again r wp = .ok w1 ∧
        w1.player.qidx = w0.player.qidx ∧ w1.player.queue = some q ∧
        w1.player_status.playing = true ∧ w1.player_status.paused = false ∧
        w1.just_started_playing = false ∧
        player_play_next_song r w1 = .ok w2 ∧
        player_monitor .again r w1 = requery w2) := by
  have first : ∀ v : World, v.player_status.playing = true → v.player_status.paused = false →
      v.just_started_playing = true →
      player_monitor .again r v
        = .ok (player_send_cmd query { v with just_started_playing := false }) := by
    intro v hp hq hj
    have hcond : v.player_status.playing = true ∧ (!v.player_status.paused) = true := by
      simp [hp, hq]
    rw [player_monitor_active .again r v hp hq]
    simp only [monitor_handle]
    rw [if_pos hcond, if_pos hj]
    simp only [Outcome.bind, requery]
    rw [if_pos hcond]
  have second : ∀ v : World, v.player_status.playing = true → v.player_status.paused = false →
      v.just_started_playing = false →
      player_monitor .again r v = (player_play_next_song r v).bind requery := by
    intro v hp hq hj
    have hcond : v.player_status.playing = true ∧ (!v.player_status.paused) = true := by
      simp [hp, hq]
    rw [player_monitor_active .again r v hp hq]
    simp only [monitor_handle]
    rw [if_pos hcond, if_neg (by simp [hj])]
  refine ⟨fun hj => ?_, fun hj => second w hplaying hpaused hj, fun w0 q hq h0 h1 => ?_⟩
  · exact ⟨first w hplaying hpaused hj, _, first w hplaying hpaused hj, rfl, rfl, rfl, rfl, rfl⟩
  · obtain ⟨f, hf⟩ := files_lookup q w0.player.qidx h0 h1
    have hplay := player_play_ok w0 q f hq h0 h1 hf
    have hfirst := first (play_file f w0) rfl rfl rfl
    have hinv : index_in_queue q
        (player_send_cmd query { play_file f w0 with just_started_playing := false }) :=
      ⟨hq, h0, h1⟩
    obtain ⟨w2, hnext, _⟩ := player_play_next_song_keeps_index r _ q hinv
    refine ⟨play_file f w0, _, w2, hplay, hfirst, rfl, hq, rfl, rfl, rfl, hnext, ?_⟩
    rw [second _ rfl rfl rfl, hnext]
    rfl

/-- Witness for C13 in Linear mode on two tracks, right after `player_play`
on track 0: the first no-data poll clears the flag and leaves the index at 0;
the second is `player_play_next_song` and the re-query, and moves the index
to 1. -/
theorem just_started_guard_witness :
    player_monitor .again 0 playing_world
      = .ok (player_send_cmd query { playing_world with just_started_playing := false }) ∧
    (player_send_cmd query { playing_world with just_started_playing := false }).player.qidx
      = 0 ∧
    ((player_monitor .again 0
        (player_send_cmd query { playing_world with just_started_playing := false })).world?.map
      fun w => (w.player.qidx, w.player_status.playing)) = some (1, true) := by
  refine ⟨((just_started_guard 0 playing_world rfl rfl).1 rfl).1, rfl, ?_⟩
  rw [(just_started_guard 0
    (player_send_cmd query { playing_world with just_started_playing := false }) rfl rfl).2.1 rfl]
  decide
set_option maxRecDepth 8000

/-! ## C14 -/

/-- The misplaced terminator seen from the fatal exit.  After a poll that read
the 22 bytes of one answer, (1) a poll reads 16 bytes that do not contain the
marker; `response[16]` still holds the `N` of the earlier answer, the string
scanned is the whole marker with nothing after it, and the poll ends in
`errx`; (2) a poll reads the marker and `=` with no number after it;
`response[18]` still holds the digit `1`, the text parses, and the poll
returns with position 1 instead of failing. -/
theorem monitor_fatal_depends_on_stale_byte :
    strstr cut_read answer = none ∧
    ((player_monitor (.data answer_read) 0 playing_world).bind
        (player_monitor (.data cut_read) 0)).fatal_msg?
      = some "player_monitor: player child is misbehaving." ∧
    (strstr bare_read answer = some bare_read ∧
      sscanf_answer (last_answer bare_read) = none) ∧
    (((player_monitor (.data answer_read) 0 playing_world).bind
        (player_monitor (.data bare_read) 0)).world?.map
      fun w => w.player_status.position) = some { mant := 1, exp10 := 0 } := by
  refine ⟨by decide, by decide, ⟨by decide, by decide⟩, by decide⟩

/-- The three ways `player_play` can end. -/
theorem player_play_cases (v : World) :
    (∃ f, player_play v = .ok (play_file f v)) ∨
    (∃ msg, player_play v = .fatal msg v) ∨
    player_play v = .undefined := by
  unfold player_play
  split
  · exact Or.inr (Or.inl ⟨_, rfl⟩)
  · split
    · exact Or.inr (Or.inl ⟨_, rfl⟩)
    · split
      · exact Or.inr (Or.inr rfl)
      · exact Or.inl ⟨_, rfl⟩

/-- The ways `player_play_next_song` can end: a track was loaded (one load
command written, playing), or playback was stopped (the stop command written,
not playing), or `player_play` ended in `errx` with nothing written, or the
behaviour is undefined. -/
theorem player_play_next_song_cases (r : Nat) (w : World) :
    (∃ f i, player_play_next_song r w = .ok (play_file f (set_qidx i w))) ∨
    player_play_next_song r w = .ok (player_stop (set_qidx 0 w)) ∨
    (∃ msg i, player_play_next_song r w = .fatal msg (set_qidx i w)) ∨
    player_play_next_song r w = .undefined := by
  have hplay : ∀ i, (∃ f, player_play (set_qidx i w) = .ok (play_file f (set_qidx i w))) ∨
      (∃ msg, player_play (set_qidx i w) = .fatal msg (set_qidx i w)) ∨
      player_play (set_qidx i w) = .undefined := fun i => player_play_cases (set_qidx i w)
  have lift : ∀ i, (∃ f j, player_play (set_qidx i w) = .ok (play_file f (set_qidx j w))) ∨
      player_play (set_qidx i w) = .ok (player_stop (set_qidx 0 w)) ∨
      (∃ msg j, player_play (set_qidx i w) = .fatal msg (set_qidx j w)) ∨
      player_play (set_qidx i w) = .undefined := by
    intro i
    rcases hplay i with ⟨f, h⟩ | ⟨msg, h⟩ | h
    · exact Or.inl ⟨f, i, h⟩
    · exact Or.inr (Or.inr (Or.inl ⟨msg, i, h⟩))
    · exact Or.inr (Or.inr (Or.inr h))
  unfold player_play_next_song
  split
  · exact Or.inr (Or.inr (Or.inr rfl))
  · split
    · simp only
      split
      · exact Or.inr (Or.inl rfl)
      · exact lift (w.player.qidx + 1)
    · simp only
      split
      · exact lift 0
      · exact lift (w.player.qidx + 1)
    · split
      · exact Or.inr (Or.inr (Or.inr rfl))
      · exact lift _

/-- The ways the handling part of an active poll can end: it returns in a
state that is not paused, with the same command pipe, and either playing,
with nothing or one load command written, or not playing, with the stop
command written; or it ends in `errx` with nothing written; or the behaviour
is undefined. -/
theorem monitor_handle_cases (rd : ReadResult) (r : Nat) (w : World)
    (hplaying : w.player_status.playing = true) (hpaused : w.player_status.paused = false) :
    (∃ w1, monitor_handle rd r w = .ok w1 ∧
      w1.player.pipe_write = w.player.pipe_write ∧ w1.player_status.paused = false ∧
      ((w1.player_status.playing = true ∧
          (w1.written = w.written ∨
            ∃ f : meta_info,
              w1.written = w.written ++ [(w.player.pipe_write, play_cmd f.filename)])) ∨
        (w1.player_status.playing = false ∧
          w1.written = w.written ++ [(w.player.pipe_write, stop_cmd)]))) ∨
    (∃ msg w1, monitor_handle rd r w = .fatal msg w1 ∧ w1.written = w.written) ∨
    monitor_handle rd r w = .undefined := by
  have hcond : w.player_status.playing = true ∧ (!w.player_status.paused) = true := by
    simp [hplaying, hpaused]
  cases rd with
  | again =>
    simp only [monitor_handle]
    rw [if_pos hcond]
    split
    · exact Or.inl ⟨_, rfl, rfl, hpaused, Or.inl ⟨hplaying, Or.inl rfl⟩⟩
    · rcases player_play_next_song_cases r w with ⟨f, i, h⟩ | h | ⟨msg, i, h⟩ | h
      · rw [h]
        exact Or.inl ⟨_, rfl, rfl, rfl, Or.inl ⟨rfl, Or.inr ⟨f, rfl⟩⟩⟩
      · rw [h]
        exact Or.inl ⟨_, rfl, rfl, rfl, Or.inr ⟨rfl, rfl⟩⟩
      · rw [h]
        exact Or.inr (Or.inl ⟨msg, _, rfl, rfl⟩)
      · rw [h]
        exact Or.inr (Or.inr rfl)
  | failed =>
    exact Or.inl ⟨w, rfl, rfl, hpaused, Or.inl ⟨hplaying, Or.inl rfl⟩⟩
  | data bytes =>
    simp only [monitor_handle]
    by_cases hfit : bytes.length + 1 < RESPONSE_SIZE
    · rw [if_pos hfit]
      cases hs : strstr (cstr ((bytes ++ w.response.drop bytes.length).set
          (bytes.length + 1) '\x00')) answer with
      | none => exact Or.inl ⟨_, rfl, rfl, hpaused, Or.inl ⟨hplaying, Or.inl rfl⟩⟩
      | some s =>
        dsimp only
        cases hx : sscanf_answer (last_answer s) with
        | none => exact Or.inr (Or.inl ⟨_, _, rfl, rfl⟩)
        | some x => exact Or.inl ⟨_, rfl, rfl, hpaused, Or.inl ⟨hplaying, Or.inl rfl⟩⟩
    · rw [if_neg hfit]
      exact Or.inr (Or.inr rfl)

/-- Neither the stop command nor a load command is the position query. -/
theorem query_ne_other_cmds (name : String) : stop_cmd ≠ query ∧ play_cmd name ≠ query := by
  constructor
  · decide
  · intro h
    have := congrArg String.data h
    simp [play_cmd, query] at this

/-- The re-query rule where the behaviour is defined: a `player_monitor`
invocation that starts not playing or paused returns the state it was given
(nothing written, nothing changed), whatever the read would return.
Otherwise the invocation is the handling followed by the re-query, and either
the handling returns, the invocation returns, and the commands it wrote end
with the position query exactly when the state at the end of the handling is
playing and not paused (the re-query changing nothing but the log of
commands); or it ends in `errx` during the handling, nothing written; or its
behaviour is undefined.  A poll that ends the queue in Linear mode writes the
stop command only, no query. -/
theorem monitor_requery_where_defined (rd : ReadResult) (r : Nat) (w : World) :
    (w.player_status.playing = false ∨ w.player_status.paused = true →
      player_monitor rd r w = .ok w) ∧
    (w.player_status.playing = true → w.player_status.paused = false →
      player_monitor rd r w = (monitor_handle rd r w).bind requery ∧
      ((∃ w1 w' cmds, monitor_handle rd r w = .ok w1 ∧ player_monitor rd r w = .ok w' ∧
          w'.written = w.written ++ cmds ∧
          (cmds.getLast? = some (w.player.pipe_write, query) ↔
            (w1.player_status.playing = true ∧ w1.player_status.paused = false)) ∧
          w'.player_status = w1.player_status ∧ w'.player = w1.player ∧
          w'.just_started_playing = w1.just_started_playing ∧ w'.response = w1.response) ∨
        (∃ msg w1, player_monitor rd r w = .fatal msg w1 ∧ w1.written = w.written) ∨
        player_monitor rd r w = .undefined)) ∧
    (∀ q, w.player_status.playing = true → w.player_status.paused = false →
      w.just_started_playing = false → w.player.mode = .PLAYER_MODE_LINEAR →
      w.player.queue = some q → w.player.qidx + 1 = q.nfiles →
      ∃ w', player_monitor .again r w = .ok w' ∧
        w'.player_status.playing = false ∧
        w'.written = w.written ++ [(w.player.pipe_write, stop_cmd)] ∧
        (w.player.pipe_write, query) ∉ [(w.player.pipe_write, stop_cmd)]) := by
  refine ⟨fun hidle => ?_, fun hplaying hpaused => ⟨player_monitor_active rd r w hplaying hpaused,
    ?_⟩, fun q hplaying hpaused hj hmode hq hlast => ?_⟩
  · have h : (!w.player_status.playing || w.player_status.paused) = true := by
      rcases hidle with h | h <;> simp [h]
    unfold player_monitor
    rw [if_pos h]
  · rw [player_monitor_active rd r w hplaying hpaused]
    rcases monitor_handle_cases rd r w hplaying hpaused with
      ⟨w1, hh, hfd, hp1, hcase⟩ | ⟨msg, w1, hh, hwr⟩ | hh
    · left
      rcases hcase with ⟨hpl, hwr⟩ | ⟨hpl, hwr⟩
      · have hcond : w1.player_status.playing = true ∧ (!w1.player_status.paused) = true := by
          simp [hpl, hp1]
        have hrun : (monitor_handle rd r w).bind requery = .ok (player_send_cmd query w1) := by
          rw [hh]
          simp only [Outcome.bind, requery]
          rw [if_pos hcond]
        rcases hwr with hwr | ⟨f, hwr⟩
        · refine ⟨w1, _, [(w.player.pipe_write, query)], hh, hrun, ?_, ?_, rfl, rfl, rfl, rfl⟩
          · show w1.written ++ [(w1.player.pipe_write, query)] = _
            rw [hwr, hfd]
          · simp [hpl, hp1]
        · refine ⟨w1, _, [(w.player.pipe_write, play_cmd f.filename),
            (w.player.pipe_write, query)], hh, hrun, ?_, ?_, rfl, rfl, rfl, rfl⟩
          · show w1.written ++ [(w1.player.pipe_write, query)] = _
            rw [hwr, hfd, List.append_assoc]
            rfl
          · simp [hpl, hp1]
      · have hcond : ¬ (w1.player_status.playing = true ∧ (!w1.player_status.paused) = true) := by
          simp [hpl]
        have hrun : (monitor_handle rd r w).bind requery = .ok w1 := by
          rw [hh]
          simp only [Outcome.bind, requery]
          rw [if_neg hcond]
        refine ⟨w1, w1, [(w.player.pipe_write, stop_cmd)], hh, hrun, hwr, ?_, rfl, rfl, rfl, rfl⟩
        have hne : stop_cmd ≠ query := (query_ne_other_cmds "").1
        simp [hpl, hne]
    · right; left
      exact ⟨msg, w1, by rw [hh]; rfl, hwr⟩
    · right; right
      rw [hh]; rfl
  · have hcond : w.player_status.playing = true ∧ (!w.player_status.paused) = true := by
      simp [hplaying, hpaused]
    have hnext : player_play_next_song r w
        = .ok (player_stop (set_qidx 0 (set_qidx (w.player.qidx + 1) w))) := by
      simp only [player_play_next_song, hq, hmode]
      rw [if_pos (by exact hlast)]
    have hne : stop_cmd ≠ query := (query_ne_other_cmds "").1
    refine ⟨player_stop (set_qidx 0 (set_qidx (w.player.qidx + 1) w)), ?_, rfl, rfl, ?_⟩
    · rw [player_monitor_active .again r w hplaying hpaused]
      simp only [monitor_handle]
      rw [if_pos hcond, if_neg (by simp [hj]), hnext]
      rfl
    · simp [Ne.symm hne]

/-- C15 (code evaluated at the failing input): playing and not paused, a
poll whose `read` returns 999 bytes writes the terminator at index 1000,
outside `response`: the invocation has no defined result, so it neither
returns with the position query as its last command nor in any other state,
although the state it handled was playing and not paused. -/
theorem long_read_poll_writes_no_query :
    busy_world.player_status.playing = true ∧ busy_world.player_status.paused = false ∧
    (List.replicate 999 'q').length + 1 = RESPONSE_SIZE ∧
    player_monitor (.data (List.replicate 999 'q')) 7 busy_world = .undefined ∧
    ¬ ∃ w' cmds, player_monitor (.data (List.replicate 999 'q')) 7 busy_world = .ok w' ∧
      w'.written = busy_world.written ++ cmds ∧
      cmds.getLast? = some (busy_world.player.pipe_write, query) := by
  have hu : player_monitor (.data (List.replicate 999 'q')) 7 busy_world = .undefined :=
    (monitor_undefined_iff _ 7 busy_world rfl rfl).2 (by rw [List.length_replicate]; decide)
  refine ⟨rfl, rfl, by rw [List.length_replicate]; rfl, hu, ?_⟩
  rintro ⟨w', cmds, h, _⟩
  rw [hu] at h
  cases h

/-! ## C16 -/

/-- C16 (code evaluated at the failing inputs): the terminator is written at
index `nbytes + 1`.  (1) For a read of 999 bytes, and of 1000 bytes, that index
is 1000, resp. 1001, outside the buffer of `RESPONSE_SIZE = 1000` characters:
the poll has no defined behaviour.  (2) After a poll that read 44 bytes, a
poll reads 42 bytes: the NUL is at index 43, index 42 keeps the `5` of the
earlier poll, and the string searched is the 42 bytes read followed by that
`5`, not the bytes read alone. -/
theorem monitor_terminator_one_too_far :
    (List.replicate 999 'x').length = 999 ∧
    player_monitor (.data (List.replicate 999 'x')) 0 playing_world = .undefined ∧
    (List.replicate 1000 'x').length = 1000 ∧
    player_monitor (.data (List.replicate 1000 'x')) 0 playing_world = .undefined ∧
    second_read.length = 42 ∧
    (((player_monitor (.data first_read) 0 playing_world).bind
        (player_monitor (.data second_read) 0)).world?.map
      fun w => (w.response[42]?, w.response[43]?, cstr w.response))
      = some (some '5', some '\x00', second_read ++ ['5']) ∧
    second_read ++ ['5'] ≠ second_read := by
  refine ⟨List.length_replicate _ _, ?_, List.length_replicate _ _, ?_, by decide, by decide,
    by decide⟩
  · exact (monitor_undefined_iff _ 0 playing_world rfl rfl).2
      (by rw [List.length_replicate]; decide)
  · exact (monitor_undefined_iff _ 0 playing_world rfl rfl).2
      (by rw [List.length_replicate]; decide)

end Vitunes
